import Mathlib

/-!
# 64DD disk-drive controller (`src/device/dd/dd_controller.c`)

A shallow embedding of the controller's geometry model, register file and
block-manager sequencer, followed by theorems about them.

Conventions of the embedding:
* machine integers are naturals, reduced `% 2 ^ w` wherever the C code stores
  into a `w`-bit object;
* C arrays are lists (constant tables) or functions `Nat → Nat` (buffers, the
  disk image); a constant-table read outside the table yields `0`;
* external collaborators (interrupt line, clock, storage backend) appear as
  fields or parameters of the operations that use them;
* an operation that can fault (a read through a pointer that is no address of
  an object) returns an `Option`: `none` stands for the fault, after which the
  program produces no further state.
-/

namespace DD

/-! ## Machine arithmetic -/

/-- Conversion to `uint8_t`. -/
def u8 (x : Nat) : Nat := x % 256

/-- Conversion to `uint16_t`. -/
def u16 (x : Nat) : Nat := x % 65536

/-- Conversion to `uint32_t`. -/
def u32 (x : Nat) : Nat := x % 4294967296

/-- Subtraction `a - b` stored into a `uint16_t` (wraps modulo `2 ^ 16`). -/
def sub16 (a b : Nat) : Nat := (a + 65536 - b % 65536) % 65536

/-- Subtraction `a - b` in `uint32_t` arithmetic (wraps modulo `2 ^ 32`). -/
def sub32 (a b : Nat) : Nat := (a + 4294967296 - b % 4294967296) % 4294967296

/-- Subtraction `a - b` stored into a `uint8_t` (wraps modulo `2 ^ 8`). -/
def sub8 (a b : Nat) : Nat := (a + 256 - b % 256) % 256

/-- Bitwise complement of a 32-bit mask, the C `~m` on `uint32_t`. -/
def not32 (m : Nat) : Nat := 0xFFFFFFFF ^^^ m

/-- Read of a one-dimensional constant table. -/
def rd (a : List Nat) (i : Nat) : Nat := a.getD i 0

/-- Read of a two-dimensional constant table `a[i][j]`. -/
def rd2 (a : List (List Nat)) (i j : Nat) : Nat := (a.getD i []).getD j 0

/-- Read `a[i][j]` of a two-dimensional table with rows of `cols` entries laid
out contiguously (row-major), as C addresses it: `j` may run past the end of
row `i` into the following row. -/
def rd2flat (a : List (List Nat)) (cols i j : Nat) : Nat :=
  (a.foldr (fun r acc => r ++ acc) []).getD (cols * i + j) 0

/-! ## Constants (lines 61-176) -/

def DD_STATUS_DATA_RQ : Nat := 0x40000000
def DD_STATUS_C2_XFER : Nat := 0x10000000
def DD_STATUS_BM_ERR : Nat := 0x08000000
def DD_STATUS_BM_INT : Nat := 0x04000000
def DD_STATUS_MECHA_INT : Nat := 0x02000000
def DD_STATUS_DISK_PRES : Nat := 0x01000000
def DD_STATUS_RST_STATE : Nat := 0x00400000
def DD_STATUS_DISK_CHNG : Nat := 0x00010000

def DD_BM_STATUS_RUNNING : Nat := 0x80000000
def DD_BM_STATUS_MICRO : Nat := 0x02000000
def DD_BM_STATUS_BLOCK : Nat := 0x01000000

def DD_BM_CTL_START : Nat := 0x80000000
def DD_BM_CTL_MNGRMODE : Nat := 0x40000000
def DD_BM_CTL_RESET : Nat := 0x10000000
def DD_BM_CTL_BLK_TRANS : Nat := 0x02000000
def DD_BM_CTL_MECHA_RST : Nat := 0x01000000

def DD_TRACK_LOCK : Nat := 0x60000000

def SECTORS_PER_BLOCK : Nat := 85
def BLOCKS_PER_TRACK : Nat := 2

def zone_sec_size : List Nat :=
  [232, 216, 208, 192, 176, 160, 144, 128,
   216, 208, 192, 176, 160, 144, 128, 112]

def zone_sec_size_phys : List Nat :=
  [232, 216, 208, 192, 176, 160, 144, 128, 112]

def ZoneTracks : List Nat :=
  [158, 158, 149, 149, 149, 149, 149, 114,
   158, 158, 149, 149, 149, 149, 149, 114]

def VZoneLBATable : List (List Nat) :=
  [[0x0124, 0x0248, 0x035A, 0x047E, 0x05A2, 0x06B4, 0x07C6, 0x08D8, 0x09EA, 0x0AB6, 0x0B82, 0x0C94, 0x0DA6, 0x0EB8, 0x0FCA, 0x10DC],
   [0x0124, 0x0248, 0x035A, 0x046C, 0x057E, 0x06A2, 0x07C6, 0x08D8, 0x09EA, 0x0AFC, 0x0BC8, 0x0C94, 0x0DA6, 0x0EB8, 0x0FCA, 0x10DC],
   [0x0124, 0x0248, 0x035A, 0x046C, 0x057E, 0x0690, 0x07A2, 0x08C6, 0x09EA, 0x0AFC, 0x0C0E, 0x0CDA, 0x0DA6, 0x0EB8, 0x0FCA, 0x10DC],
   [0x0124, 0x0248, 0x035A, 0x046C, 0x057E, 0x0690, 0x07A2, 0x08B4, 0x09C6, 0x0AEA, 0x0C0E, 0x0D20, 0x0DEC, 0x0EB8, 0x0FCA, 0x10DC],
   [0x0124, 0x0248, 0x035A, 0x046C, 0x057E, 0x0690, 0x07A2, 0x08B4, 0x09C6, 0x0AD8, 0x0BEA, 0x0D0E, 0x0E32, 0x0EFE, 0x0FCA, 0x10DC],
   [0x0124, 0x0248, 0x035A, 0x046C, 0x057E, 0x0690, 0x07A2, 0x086E, 0x0980, 0x0A92, 0x0BA4, 0x0CB6, 0x0DC8, 0x0EEC, 0x1010, 0x10DC],
   [0x0124, 0x0248, 0x035A, 0x046C, 0x057E, 0x0690, 0x07A2, 0x086E, 0x093A, 0x0A4C, 0x0B5E, 0x0C70, 0x0D82, 0x0E94, 0x0FB8, 0x10DC]]

def TrackZoneTable : List (List Nat) :=
  [[0x000, 0x09E, 0x13C, 0x1D1, 0x266, 0x2FB, 0x390, 0x425],
   [0x091, 0x12F, 0x1C4, 0x259, 0x2EE, 0x383, 0x418, 0x48A]]

def VZONE_PZONE_TBL : List (List Nat) :=
  [[0x0, 0x1, 0x2, 0x9, 0x8, 0x3, 0x4, 0x5, 0x6, 0x7, 0xF, 0xE, 0xD, 0xC, 0xB, 0xA],
   [0x0, 0x1, 0x2, 0x3, 0xA, 0x9, 0x8, 0x4, 0x5, 0x6, 0x7, 0xF, 0xE, 0xD, 0xC, 0xB],
   [0x0, 0x1, 0x2, 0x3, 0x4, 0xB, 0xA, 0x9, 0x8, 0x5, 0x6, 0x7, 0xF, 0xE, 0xD, 0xC],
   [0x0, 0x1, 0x2, 0x3, 0x4, 0x5, 0xC, 0xB, 0xA, 0x9, 0x8, 0x6, 0x7, 0xF, 0xE, 0xD],
   [0x0, 0x1, 0x2, 0x3, 0x4, 0x5, 0x6, 0xD, 0xC, 0xB, 0xA, 0x9, 0x8, 0x7, 0xF, 0xE],
   [0x0, 0x1, 0x2, 0x3, 0x4, 0x5, 0x6, 0x7, 0xE, 0xD, 0xC, 0xB, 0xA, 0x9, 0x8, 0xF],
   [0x0, 0x1, 0x2, 0x3, 0x4, 0x5, 0x6, 0x7, 0xF, 0xE, 0xD, 0xC, 0xB, 0xA, 0x9, 0x8]]

/-- The macro `VZoneToPZone(x, y)`, that is `VZONE_PZONE_TBL[y][x]`. -/
def VZoneToPZone (x y : Nat) : Nat := rd2 VZONE_PZONE_TBL y x

def MAX_LBA : Nat := 0x10DB

/-- The macro `SIZE_LBA`, `MAX_LBA+1`. -/
def SIZE_LBA : Nat := MAX_LBA + 1

/-! ## The attached disk (storage backend) -/

/-- Modelled from the spec: the disk format variants (`extra->format`; the
enumeration is declared in the storage backend header, outside
`dd_controller.c`), under the names the controller code uses. -/
inductive DiskFormat where
  | DISK_FORMAT_MAME
  | DISK_FORMAT_SDK
  | DISK_FORMAT_D64
  deriving DecidableEq, Repr

/-- Modelled from the spec: what the storage backend hands to the controller
(its header lies outside `dd_controller.c`): the image bytes (`idisk->data`)
and the format metadata (`idisk->extra`: format variant, development flag,
system-data offset, disk-ID offset). -/
structure Disk where
  data : Nat → Nat
  format : DiskFormat
  development : Nat
  offset_sys : Nat
  offset_id : Nat

/-- One byte of the disk image, `disk_mem[i]` (a `uint8_t`). -/
def Disk.byte (d : Disk) (i : Nat) : Nat := u8 (d.data i)

/-! ## Geometry model (lines 785-934) -/

/-- The scan of `LBAToVZoneA`: `n` iterations remain, `vzone` is the loop
variable. -/
def LBAToVZoneA_loop (type lba : Nat) : Nat → Nat → Nat
  | 0, _ => 0xFFFFFFFF
  | n + 1, vzone =>
    if lba < rd2 VZoneLBATable (type &&& 0x0F) vzone then vzone
    else LBAToVZoneA_loop type lba n (vzone + 1)

/-- The function `LBAToVZoneA(type, lba)`: first virtual zone whose boundary exceeds `lba`,
or `(uint32_t)-1`. -/
def LBAToVZoneA (type lba : Nat) : Nat := LBAToVZoneA_loop type lba 16 0

/-- The function `LBAToVZone(dd, lba)`. -/
def LBAToVZone (d : Disk) (lba : Nat) : Nat :=
  LBAToVZoneA (d.byte (5 + d.offset_sys)) lba

/-- The call `LBAToVZone(type, lba)` of line 838, inside `LBAToByteA`.
`LBAToVZone` (line 799) takes the controller, `struct dd_controller* dd`, as
its first parameter and starts by reading `dd->idisk` and `dd->disk` through it
(line 801). This caller passes the disk-type byte in that position: a value in
`0..255`, which is not the address of a controller. The read through it faults,
so the call yields no value (`none`), whatever `type` and `lba` are. -/
def LBAToVZone_of_type (_type _lba : Nat) : Option Nat := none

/-- The body of the zone-reload branch of `LBAToByteA` (lines 838-844): the
new `vzone` and `blocksize`, or `none` when the lookup of line 838 faults. -/
def LBAToByteA_zone (type disktype lba : Nat) : Option (Nat × Nat) :=
  match LBAToVZone_of_type type lba with
  | none => none
  | some vzone =>
    let pzone0 := VZoneToPZone vzone disktype
    let pzone := if 7 < pzone0 then pzone0 - 7 else pzone0
    some (vzone, rd zone_sec_size_phys pzone * SECTORS_PER_BLOCK)

/-- The loop of `LBAToByteA` (lines 834-854); the first argument is the
remaining count `nlbas`, the others are the locals `lba`, `init_flag`, `vzone`,
`blocksize` and `totalbytes`. The result is `none` when an iteration faults. -/
def LBAToByteA_loop (type disktype : Nat) :
    Nat → Nat → Nat → Nat → Nat → Nat → Option Nat
  | 0, _, _, _, _, totalbytes => some totalbytes
  | n + 1, lba, init_flag, vzone, blocksize, totalbytes =>
    match (if init_flag = 1 ∨ rd2 VZoneLBATable disktype vzone = lba then
        LBAToByteA_zone type disktype lba
      else some (vzone, blocksize)) with
    | none => none
    | some z =>
      let totalbytes1 := u32 (totalbytes + z.2)
      let lba1 := u32 (lba + 1)
      if n + 1 ≠ 0 ∧ lba1 > MAX_LBA then some 0xFFFFFFFF
      else LBAToByteA_loop type disktype n lba1 0 z.1 z.2 totalbytes1

/-- The function `LBAToByteA(type, lba, nlbas)`: the value returned, or `none`
when the call faults. -/
def LBAToByteA (type lba nlbas : Nat) : Option Nat :=
  LBAToByteA_loop type (type &&& 0x0F) nlbas lba 1 0 0 0

/-- The function `LBAToByte(dd, lba, nlbas)`: the value returned, or `none` when
the call faults. -/
def LBAToByte (d : Disk) (lba nlbas : Nat) : Option Nat :=
  LBAToByteA (d.byte (5 + d.offset_sys)) lba nlbas

/-- The `OUTERCYL_TBL` local of `LBAToPhys`. -/
def OUTERCYL_TBL : List Nat :=
  [0x000, 0x09E, 0x13C, 0x1D1, 0x266, 0x2FB, 0x390, 0x425]

/-- The defect-skipping `while` loop of `LBAToPhys` (lines 912-917); the first
argument is `defect_amount`, which the loop counts down to zero. -/
def skip_defects (d : Disk) (track_zone_start : Nat) : Nat → Nat → Nat → Nat
  | 0, _, track => track
  | n + 1, defect_offset, track =>
    if d.byte (d.offset_sys + (0x20 + defect_offset)) + track_zone_start ≤ track then
      skip_defects d track_zone_start n (u16 (defect_offset + 1)) (u16 (track + 1))
    else track

/-- The function `LBAToPhys(dd, lba)`: the packed physical coordinate of an LBA. -/
def LBAToPhys (d : Disk) (lba : Nat) : Nat :=
  let disktype := d.byte (d.offset_sys + 5) &&& 0x0F
  let block := if lba &&& 3 = 0 ∨ lba &&& 3 = 3 then 0 else 1
  let vzone := u16 (LBAToVZone d lba)
  let pzone := u16 (VZoneToPZone vzone disktype)
  let head := if 7 < pzone then 1 else 0
  let disk_zone := if pzone ≠ 0 then sub16 pzone 7 else pzone
  let vzone_lba := if vzone ≠ 0 then rd2 VZoneLBATable disktype (vzone - 1) else 0
  let track0 := u16 (sub32 lba vzone_lba >>> 1)
  let track1 := if head ≠ 0 then sub16 0 track0 else track0
  let track_zone_start :=
    if head ≠ 0 then rd OUTERCYL_TBL (disk_zone - 1)
    else rd2flat TrackZoneTable 8 0 pzone
  let track2 := u16 (track1 + rd2flat TrackZoneTable 8 0 pzone)
  let defect_offset :=
    if pzone ≠ 0 then d.byte (d.offset_sys + (8 + pzone - 1)) else 0
  let defect_amount := sub16 (d.byte (d.offset_sys + (8 + pzone))) defect_offset
  let track := skip_defects d track_zone_start defect_amount defect_offset track2
  u16 (track ||| head * 0x1000 ||| block * 0x2000)

/-- The table-filling loop of `GenerateLBAToPhysTable`: entries `lba`,
`lba + 1`, ... are written, `n` of them. -/
def GenerateLBAToPhysTable_loop (d : Disk) : Nat → Nat → (Nat → Nat) → (Nat → Nat)
  | 0, _, table => table
  | n + 1, lba, table =>
    GenerateLBAToPhysTable_loop d n (lba + 1)
      (fun i => if i = lba then LBAToPhys d lba else table i)

/-- The function `GenerateLBAToPhysTable(dd)` as a function of the attached disk and the
previous contents of `dd->lba_phys_table`. -/
def GenerateLBAToPhysTable (d : Disk) (table : Nat → Nat) : Nat → Nat :=
  if d.format = DiskFormat.DISK_FORMAT_MAME then table
  else GenerateLBAToPhysTable_loop d SIZE_LBA 0 table

/-- The search loop of `PhysToLBA`: `n` candidates remain, starting at `lba`. -/
def PhysToLBA_loop (table : Nat → Nat) (expectedvalue : Nat) : Nat → Nat → Nat
  | 0, _ => 0xFFFF
  | n + 1, lba =>
    if table lba = expectedvalue then lba
    else PhysToLBA_loop table expectedvalue n (lba + 1)

/-- The function `PhysToLBA(dd, head, track, block)` over the table `dd->lba_phys_table`. -/
def PhysToLBA (table : Nat → Nat) (head track block : Nat) : Nat :=
  let expectedvalue := u16 (track ||| head * 0x1000 ||| block * 0x2000)
  PhysToLBA_loop table expectedvalue SIZE_LBA 0

/-! ## Device state -/

/-- Modelled from the spec: the register indices of the `dd_registers`
enumeration (declared in `dd_controller.h`, outside `dd_controller.c`),
restricted to the registers the controller code names; `other n` stands for
every other word of the register window. -/
inductive Reg where
  | DD_ASIC_DATA
  | DD_ASIC_CMD_STATUS
  | DD_ASIC_CUR_TK
  | DD_ASIC_BM_STATUS_CTL
  | DD_ASIC_CUR_SECTOR
  | DD_ASIC_HARD_RESET
  | DD_ASIC_HOST_SECBYTE
  | DD_ASIC_SEC_BYTE
  | DD_ASIC_ID_REG
  | other (n : Nat)
  deriving DecidableEq, Repr

/-- Record of a call of one of the sector helpers, kept in the model state so
that theorems can speak about which helper calls a step performed. -/
inductive Call where
  /-- A call of `seek_track` with this `bm_block` and this value of
  `CUR_SECTOR - bm_write`. -/
  | seek_track (bm_block sector : Nat)
  /-- A call of `read_sector` copying `length` bytes from image offset `offset`. -/
  | read_sector (offset length : Nat)
  /-- A call of `write_sector` copying `length` bytes to image offset `offset`. -/
  | write_sector (offset length : Nat)
  /-- A call of `read_C2` clearing `length` bytes from buffer offset `offset`. -/
  | read_C2 (offset length : Nat)
  deriving DecidableEq, Repr

/-- Whether a recorded call is a sector read. -/
def Call.isRead : Call → Bool
  | Call.read_sector _ _ => true
  | _ => false

/-- Whether a recorded call is a seek. -/
def Call.isSeek : Call → Bool
  | Call.seek_track _ _ => true
  | _ => false

/-- Modelled from the spec: `struct dd_controller` (declared in
`dd_controller.h`, outside `dd_controller.c`), with the fields the code
uses. `bm_write`, `bm_reset_held` and `bm_block` are taken to be bytes holding 0
or 1, as the spec describes them; `idisk` tells whether a disk is attached
(`dd->idisk != NULL`) and `disk` is what the storage backend returns for it;
`ip3` is the level last given to the interrupt line through
`r4300_check_interrupt`; `calls` records the sector helper calls made so far,
oldest first. -/
structure dd_controller where
  regs : Reg → Nat
  c2s_buf : Nat → Nat
  ds_buf : Nat → Nat
  rtc_now : Int
  rtc_last_update_rtc : Int
  bm_write : Nat
  bm_reset_held : Nat
  bm_block : Nat
  bm_zone : Nat
  bm_track_offset : Nat
  lba_phys_table : Nat → Nat
  idisk : Bool
  disk : Disk
  ip3 : Bool
  calls : List Call

/-- Store `v` into `dd->regs[r]`. -/
def dd_controller.setReg (dd : dd_controller) (r : Reg) (v : Nat) : dd_controller :=
  { dd with regs := fun x => if x = r then v else dd.regs x }

/-- Number of sector reads recorded so far. -/
def dd_controller.reads (dd : dd_controller) : Nat := dd.calls.countP Call.isRead

/-- Number of seeks recorded so far. -/
def dd_controller.seeks (dd : dd_controller) : Nat := dd.calls.countP Call.isSeek

/-! ## RTC helpers (lines 181-199) -/

/-- The function `byte2bcd(n)` for a C `int` argument: `%` and `/` truncate towards zero,
the result is converted to `uint8_t`. -/
def byte2bcd (n : Int) : Nat :=
  let n1 := Int.tmod n 100
  (Int.lor (Int.tdiv n1 10 <<< (4 : Int)) (Int.tmod n1 10) % 256).toNat

/-- The function `time2data(hi, lo)`. -/
def time2data (hi lo : Int) : Nat :=
  u32 (byte2bcd hi <<< 24) ||| u32 (byte2bcd lo <<< 16)

/-- The fields of the C library `struct tm` read by the controller. -/
structure tm where
  tm_sec : Int
  tm_min : Int
  tm_hour : Int
  tm_mday : Int
  tm_mon : Int
  tm_year : Int

/-- The function `update_rtc(&dd->rtc)`, where `now` is the time returned by the clock
backend. -/
def update_rtc (dd : dd_controller) (now : Int) : dd_controller :=
  { dd with rtc_now := dd.rtc_now + (now - dd.rtc_last_update_rtc), rtc_last_update_rtc := now }

/-! ## Interrupts (lines 201-211) -/

/-- Modelled from the spec: `r4300_check_interrupt(dd->r4300, CP0_CAUSE_IP3, state)`
of the CPU core (defined outside `dd_controller.c`), which raises (`state = 1`) or
clears (`state = 0`) the interrupt line of the device. -/
def r4300_check_interrupt (dd : dd_controller) (state : Bool) : dd_controller :=
  { dd with ip3 := state }

/-- The function `signal_dd_interrupt(dd, bm_int)`. -/
def signal_dd_interrupt (dd : dd_controller) (bm_int : Nat) : dd_controller :=
  r4300_check_interrupt
    (dd.setReg Reg.DD_ASIC_CMD_STATUS (dd.regs Reg.DD_ASIC_CMD_STATUS ||| bm_int)) true

/-- The function `clear_dd_interrupt(dd, bm_int)`. -/
def clear_dd_interrupt (dd : dd_controller) (bm_int : Nat) : dd_controller :=
  r4300_check_interrupt
    (dd.setReg Reg.DD_ASIC_CMD_STATUS (dd.regs Reg.DD_ASIC_CMD_STATUS &&& not32 bm_int)) false

/-! ## Sector helpers (lines 213-263) -/

/-- The loop of `read_C2`: `n` bytes remain, `i` is the loop variable. -/
def read_C2_loop (offset : Nat) : Nat → Nat → (Nat → Nat) → (Nat → Nat)
  | 0, _, buf => buf
  | n + 1, i, buf =>
    read_C2_loop offset n (i + 1) (fun a => if a = (offset + i) ^^^ 3 then 0 else buf a)

/-- The function `read_C2(dd)`. -/
def read_C2 (dd : dd_controller) : dd_controller :=
  let length := rd zone_sec_size dd.bm_zone
  let offset := u32 (0x40 * sub32 (dd.regs Reg.DD_ASIC_CUR_SECTOR) SECTORS_PER_BLOCK)
  { dd with
    c2s_buf := read_C2_loop offset length 0 dd.c2s_buf
    calls := dd.calls ++ [Call.read_C2 offset length] }

/-- The loop of `read_sector`: `n` bytes remain, `i` is the loop variable. -/
def read_sector_loop (d : Disk) (offset : Nat) : Nat → Nat → (Nat → Nat) → (Nat → Nat)
  | 0, _, buf => buf
  | n + 1, i, buf =>
    read_sector_loop d offset n (i + 1)
      (fun a => if a = i ^^^ 3 then d.byte (offset + i) else buf a)

/-- The function `read_sector(dd)`. -/
def read_sector (dd : dd_controller) : dd_controller :=
  let offset := dd.bm_track_offset
  let length := u32 (dd.regs Reg.DD_ASIC_HOST_SECBYTE + 1)
  { dd with
    ds_buf := read_sector_loop dd.disk offset length 0 dd.ds_buf
    calls := dd.calls ++ [Call.read_sector offset length] }

/-- The loop of `write_sector`: `n` bytes remain, `i` is the loop variable. -/
def write_sector_loop (ds_buf : Nat → Nat) (offset : Nat) :
    Nat → Nat → (Nat → Nat) → (Nat → Nat)
  | 0, _, mem => mem
  | n + 1, i, mem =>
    write_sector_loop ds_buf offset n (i + 1)
      (fun a => if a = offset + i then u8 (ds_buf (i ^^^ 3)) else mem a)

/-- The function `write_sector(dd)`. -/
def write_sector (dd : dd_controller) : dd_controller :=
  let offset := dd.bm_track_offset
  let length :=
    if dd.disk.format ≠ DiskFormat.DISK_FORMAT_MAME then
      u32 (dd.regs Reg.DD_ASIC_HOST_SECBYTE + 1)
    else rd zone_sec_size dd.bm_zone
  { dd with
    disk := { dd.disk with data := write_sector_loop dd.ds_buf offset length 0 dd.disk.data }
    calls := dd.calls ++ [Call.write_sector offset length] }

/-! ## Seek (lines 265-342) -/

/-- The `start_offset` table of `seek_track`. -/
def start_offset : List Nat :=
  [0x0000000, 0x05f15e0, 0x0b79d00, 0x10801a0,
   0x1523720, 0x1963d80, 0x1d414c0, 0x20bbce0,
   0x23196e0, 0x28a1e00, 0x2df5dc0, 0x3299340,
   0x36d99a0, 0x3ab70e0, 0x3e31900, 0x4149200]

/-- The `tracks` table of `seek_track`. -/
def tracks : List Nat :=
  [0x000, 0x09e, 0x13c, 0x1d1, 0x266, 0x2fb, 0x390, 0x425]

/-- The zone search loop of `seek_track` (lines 288-292); the argument is the
loop variable `dd->bm_zone`, counted down from 7. -/
def seek_zone_loop (track : Nat) : Nat → Nat
  | 0 => 0
  | z + 1 => if track ≥ rd tracks (z + 1) then z + 1 else seek_zone_loop track z

/-- The cross-check of a resolved offset against the recorded system-data and
disk-ID blocks (lines 304-310 and 329-335). -/
def check_system_blocks (dd : dd_controller) : dd_controller :=
  let block := u16 (dd.bm_track_offset / 0x4D08)
  let block_sys := u16 (dd.disk.offset_sys / 0x4D08)
  let block_id := u16 (dd.disk.offset_id / 0x4D08)
  if block < 12 ∧ block ≠ block_sys then
    dd.setReg Reg.DD_ASIC_BM_STATUS_CTL (dd.regs Reg.DD_ASIC_BM_STATUS_CTL ||| DD_BM_STATUS_MICRO)
  else if block > 12 ∧ block < 16 ∧ block ≠ block_id then
    dd.setReg Reg.DD_ASIC_BM_STATUS_CTL (dd.regs Reg.DD_ASIC_BM_STATUS_CTL ||| DD_BM_STATUS_MICRO)
  else dd

/-- The flat-format branch of `seek_track` (lines 269-311). -/
def seek_track_mame (dd : dd_controller) : dd_controller :=
  let head_x_8 := (dd.regs Reg.DD_ASIC_CUR_TK &&& 0x1000) >>> 9
  let track := dd.regs Reg.DD_ASIC_CUR_TK &&& 0x0fff
  let zone := seek_zone_loop track 7
  let tr_off := sub32 track (rd tracks zone)
  let bm_zone := u32 (zone + head_x_8)
  let bm_track_offset :=
    u32 (rd start_offset bm_zone
      + tr_off * (rd zone_sec_size bm_zone * SECTORS_PER_BLOCK * BLOCKS_PER_TRACK)
      + dd.bm_block * (rd zone_sec_size bm_zone * SECTORS_PER_BLOCK)
      + sub32 (dd.regs Reg.DD_ASIC_CUR_SECTOR) dd.bm_write * rd zone_sec_size bm_zone)
  let dd1 : dd_controller := { dd with bm_zone := bm_zone, bm_track_offset := bm_track_offset }
  if dd1.regs Reg.DD_ASIC_CUR_SECTOR = 0 then check_system_blocks dd1 else dd1

/-- The LBA of the coordinate the LBA-addressed branch of `seek_track` looks up
(lines 316-321): `PhysToLBA(dd, head, track, block)` stored into a
`uint16_t`. -/
def seek_track_lba (dd : dd_controller) : Nat :=
  let head := u16 ((dd.regs Reg.DD_ASIC_CUR_TK &&& 0x1000) / 0x1000)
  let track := u16 (dd.regs Reg.DD_ASIC_CUR_TK &&& 0x0fff)
  let block := u16 dd.bm_block
  u16 (PhysToLBA dd.lba_phys_table head track block)

/-- The LBA-addressed branch of `seek_track` (lines 313-337); `none` when the
call `LBAToByte(dd, 0, lba)` of line 324 faults. -/
def seek_track_sdk (dd : dd_controller) : Option dd_controller :=
  let sector := u16 (sub32 (dd.regs Reg.DD_ASIC_CUR_SECTOR) dd.bm_write)
  let sectorsize := u16 (dd.regs Reg.DD_ASIC_HOST_SECBYTE + 1)
  let lba := seek_track_lba dd
  match LBAToByte dd.disk 0 lba with
  | none => none
  | some bytes =>
    let dd1 : dd_controller :=
      { dd with bm_track_offset := u32 (bytes + sector * sectorsize) }
    some (if sector = 0 then check_system_blocks dd1 else dd1)

/-- The function `seek_track(dd)`: the state it leaves, or `none` when it
faults. -/
def seek_track (dd0 : dd_controller) : Option dd_controller :=
  let dd : dd_controller :=
    { dd0 with calls := dd0.calls ++
        [Call.seek_track dd0.bm_block (sub32 (dd0.regs Reg.DD_ASIC_CUR_SECTOR) dd0.bm_write)] }
  if dd.disk.format = DiskFormat.DISK_FORMAT_MAME then some (seek_track_mame dd)
  else if dd.disk.format = DiskFormat.DISK_FORMAT_SDK then seek_track_sdk dd
  else some dd

/-! ## Block-manager sequencer (lines 344-430) -/

/-- The statement `++dd->regs[DD_ASIC_CUR_SECTOR]`. -/
def inc_cur_sector (dd : dd_controller) : dd_controller :=
  dd.setReg Reg.DD_ASIC_CUR_SECTOR (u32 (dd.regs Reg.DD_ASIC_CUR_SECTOR + 1))

/-- The statement `dd->regs[r] |= m`. -/
def or_reg (dd : dd_controller) (r : Reg) (m : Nat) : dd_controller :=
  dd.setReg r (dd.regs r ||| m)

/-- The statement `dd->regs[r] &= ~m`. -/
def clear_reg (dd : dd_controller) (r : Reg) (m : Nat) : dd_controller :=
  dd.setReg r (dd.regs r &&& not32 m)

/-- The statements after `seek_track(dd); write_sector(dd);` in the
continue-to-next-block branch of a write (lines 373-376). -/
def next_block_write (dd1 : dd_controller) : dd_controller :=
  let dd2 : dd_controller := { dd1 with bm_block := sub8 1 dd1.bm_block }
  let dd3 := dd2.setReg Reg.DD_ASIC_CUR_SECTOR 1
  let dd4 := clear_reg dd3 Reg.DD_ASIC_BM_STATUS_CTL DD_BM_STATUS_BLOCK
  or_reg dd4 Reg.DD_ASIC_CMD_STATUS DD_STATUS_DATA_RQ

/-- The write half of `dd_update_bm` (lines 354-388); `none` when the seek
faults. -/
def dd_update_bm_write (dd : dd_controller) : Option dd_controller :=
  if dd.regs Reg.DD_ASIC_CUR_SECTOR = 0 then
    some (or_reg (inc_cur_sector dd) Reg.DD_ASIC_CMD_STATUS DD_STATUS_DATA_RQ)
  else if dd.regs Reg.DD_ASIC_CUR_SECTOR < SECTORS_PER_BLOCK then
    (seek_track dd).map (fun dd0 =>
      or_reg (inc_cur_sector (write_sector dd0)) Reg.DD_ASIC_CMD_STATUS DD_STATUS_DATA_RQ)
  else if dd.regs Reg.DD_ASIC_CUR_SECTOR < SECTORS_PER_BLOCK + 1 then
    if dd.regs Reg.DD_ASIC_BM_STATUS_CTL &&& DD_BM_STATUS_BLOCK ≠ 0 then
      (seek_track dd).map (fun dd0 => next_block_write (write_sector dd0))
    else
      (seek_track dd).map (fun dd0 =>
        clear_reg (inc_cur_sector (write_sector dd0)) Reg.DD_ASIC_BM_STATUS_CTL
          DD_BM_STATUS_RUNNING)
  else some dd

/-- The read half of `dd_update_bm` (lines 390-426); `none` when the seek
faults. -/
def dd_update_bm_read (dd : dd_controller) : Option dd_controller :=
  let dev := u8 dd.disk.development
  if (dd.regs Reg.DD_ASIC_CUR_TK &&& 0x1fff) = 6 ∧ dd.bm_block = 0 ∧ dev = 0 then
    some (or_reg (clear_reg dd Reg.DD_ASIC_CMD_STATUS DD_STATUS_DATA_RQ)
      Reg.DD_ASIC_BM_STATUS_CTL DD_BM_STATUS_MICRO)
  else if dd.regs Reg.DD_ASIC_CUR_SECTOR < SECTORS_PER_BLOCK then
    (seek_track dd).map (fun dd0 =>
      or_reg (inc_cur_sector (read_sector dd0)) Reg.DD_ASIC_CMD_STATUS DD_STATUS_DATA_RQ)
  else if dd.regs Reg.DD_ASIC_CUR_SECTOR < SECTORS_PER_BLOCK + 4 then
    let dd1 := inc_cur_sector (read_C2 dd)
    if dd1.regs Reg.DD_ASIC_CUR_SECTOR = SECTORS_PER_BLOCK + 4 then
      some (or_reg dd1 Reg.DD_ASIC_CMD_STATUS DD_STATUS_C2_XFER)
    else some dd1
  else if dd.regs Reg.DD_ASIC_CUR_SECTOR = SECTORS_PER_BLOCK + 4 then
    if dd.regs Reg.DD_ASIC_BM_STATUS_CTL &&& DD_BM_STATUS_BLOCK ≠ 0 then
      let dd2 : dd_controller := { dd with bm_block := sub8 1 dd.bm_block }
      let dd3 := dd2.setReg Reg.DD_ASIC_CUR_SECTOR 0
      some (clear_reg dd3 Reg.DD_ASIC_BM_STATUS_CTL DD_BM_STATUS_BLOCK)
    else
      some (clear_reg dd Reg.DD_ASIC_BM_STATUS_CTL DD_BM_STATUS_RUNNING)
  else some dd

/-- The function `dd_update_bm(dd)`: one step of the block-manager sequencer; the
state it leaves, or `none` when it faults. -/
def dd_update_bm (dd : dd_controller) : Option dd_controller :=
  if dd.regs Reg.DD_ASIC_BM_STATUS_CTL &&& DD_BM_STATUS_RUNNING = 0 then some dd
  else
    (if dd.bm_write ≠ 0 then dd_update_bm_write dd else dd_update_bm_read dd).map
      (fun dd1 => signal_dd_interrupt dd1 DD_STATUS_BM_INT)

/-! ## Register file (lines 479-679) and bus notification (lines 770-782) -/

/-- Modelled from the spec: the address map of the device (`MM_DD_REGS`,
`MM_DD_MS_RAM`, `MM_DD_C2S_BUFFER`, `MM_DD_DS_BUFFER` and the decoder `dd_reg`,
declared in headers outside `dd_controller.c`). The register window is
`[MM_DD_REGS, MM_DD_MS_RAM)`. -/
structure Mmio where
  MM_DD_REGS : Nat
  MM_DD_MS_RAM : Nat
  MM_DD_C2S_BUFFER : Nat
  MM_DD_DS_BUFFER : Nat
  dd_reg : Nat → Reg

/-- The function `read_dd_regs(dd, address, &value)`: the new state and the value read, or
`none` when the resumed sequencer step faults. -/
def read_dd_regs (m : Mmio) (dd : dd_controller) (address : Nat) :
    Option (dd_controller × Nat) :=
  if address < m.MM_DD_REGS ∨ address ≥ m.MM_DD_MS_RAM then some (dd, 0)
  else
    let reg := m.dd_reg address
    let dd1 :=
      if reg = Reg.DD_ASIC_CMD_STATUS then
        if dd.idisk then or_reg dd reg DD_STATUS_DISK_PRES
        else clear_reg dd reg DD_STATUS_DISK_PRES
      else dd
    let value := dd1.regs reg
    let dd2 : Option dd_controller :=
      if reg = Reg.DD_ASIC_CMD_STATUS then
        if dd1.regs Reg.DD_ASIC_CMD_STATUS &&& DD_STATUS_BM_INT ≠ 0 ∧
            dd1.regs Reg.DD_ASIC_CUR_SECTOR > SECTORS_PER_BLOCK then
          dd_update_bm (clear_dd_interrupt dd1 DD_STATUS_BM_INT)
        else some dd1
      else some dd1
    dd2.map (fun s => (s, value))

/-- The command dispatch of `write_dd_regs` (lines 540-595), for a write of
`value` to the command/status register; `now` is the time returned by the
clock backend and `localtime` the C library conversion. -/
def write_dd_cmd (now : Int) (localtime : Int → tm) (dd0 : dd_controller) (value : Nat) :
    dd_controller :=
  let dd := update_rtc dd0 now
  let t := localtime dd.rtc_now
  let cmd := (value >>> 16) &&& 0xff
  let dd1 : dd_controller :=
    if cmd = 0x00 then dd
    else if cmd = 0x01 ∨ cmd = 0x02 then
      let dd2 := dd.setReg Reg.DD_ASIC_CUR_TK (dd.regs Reg.DD_ASIC_DATA >>> 16)
      let dd3 := or_reg dd2 Reg.DD_ASIC_CUR_TK DD_TRACK_LOCK
      { dd3 with bm_write := (value >>> 17) &&& 0x1 }
    else if cmd = 0x08 then clear_reg dd Reg.DD_ASIC_CMD_STATUS DD_STATUS_DISK_CHNG
    else if cmd = 0x09 then
      clear_reg (clear_reg dd Reg.DD_ASIC_CMD_STATUS DD_STATUS_RST_STATE)
        Reg.DD_ASIC_CMD_STATUS DD_STATUS_DISK_CHNG
    else if cmd = 0x0b then dd
    else if cmd = 0x12 then
      dd.setReg Reg.DD_ASIC_DATA (time2data t.tm_year (t.tm_mon + 1))
    else if cmd = 0x13 then
      dd.setReg Reg.DD_ASIC_DATA (time2data t.tm_mday t.tm_hour)
    else if cmd = 0x14 then
      dd.setReg Reg.DD_ASIC_DATA (time2data t.tm_min t.tm_sec)
    else if cmd = 0x1b then dd.setReg Reg.DD_ASIC_DATA 0x00000000
    else dd
  signal_dd_interrupt dd1 DD_STATUS_MECHA_INT

/-- Start-sector decoding of a write to the BM status/control register
(lines 599-610). -/
def bm_ctl_set_sector (dd : dd_controller) (value : Nat) : dd_controller :=
  let start_sector := u8 ((value >>> 16) &&& 0xff)
  if start_sector = 0x00 then
    ({ dd with bm_block := 0 } : dd_controller).setReg Reg.DD_ASIC_CUR_SECTOR 0
  else if start_sector = 0x5a then
    ({ dd with bm_block := 1 } : dd_controller).setReg Reg.DD_ASIC_CUR_SECTOR 0
  else dd

/-- The mecha-reset and block-transfer bits of a write to the BM
status/control register (lines 612-619). -/
def bm_ctl_flags (dd : dd_controller) (value : Nat) : dd_controller :=
  let dd1 :=
    if value &&& DD_BM_CTL_MECHA_RST ≠ 0 then
      clear_reg dd Reg.DD_ASIC_CMD_STATUS DD_STATUS_MECHA_INT
    else dd
  if value &&& DD_BM_CTL_BLK_TRANS ≠ 0 then
    or_reg dd1 Reg.DD_ASIC_BM_STATUS_CTL DD_BM_STATUS_BLOCK
  else dd1

/-- Reset handling of a write to the BM status/control register
(lines 620-633). -/
def bm_ctl_reset (dd : dd_controller) (value : Nat) : dd_controller :=
  let dd1 : dd_controller :=
    if value &&& DD_BM_CTL_RESET ≠ 0 then { dd with bm_reset_held := 1 } else dd
  if ¬ (value &&& DD_BM_CTL_RESET ≠ 0) ∧ dd1.bm_reset_held ≠ 0 then
    let a : dd_controller := { dd1 with bm_reset_held := 0 }
    let b := clear_reg a Reg.DD_ASIC_CMD_STATUS
      (DD_STATUS_DATA_RQ ||| DD_STATUS_C2_XFER ||| DD_STATUS_BM_ERR ||| DD_STATUS_BM_INT)
    let c := b.setReg Reg.DD_ASIC_BM_STATUS_CTL 0
    let e := c.setReg Reg.DD_ASIC_CUR_SECTOR 0
    { e with bm_block := 0 }
  else dd1

/-- Lowering of the interrupt line when both interrupt sources are clear
(lines 635-638). -/
def bm_ctl_irq (dd : dd_controller) : dd_controller :=
  if dd.regs Reg.DD_ASIC_CMD_STATUS &&& (DD_STATUS_BM_INT ||| DD_STATUS_MECHA_INT) = 0 then
    clear_dd_interrupt dd DD_STATUS_BM_INT
  else dd

/-- Start of a transfer on a write to the BM status/control register
(lines 640-650); `none` when the sequencer step it runs faults. -/
def bm_ctl_start (dd : dd_controller) (value : Nat) : Option dd_controller :=
  if value &&& DD_BM_CTL_START ≠ 0 then
    dd_update_bm (or_reg dd Reg.DD_ASIC_BM_STATUS_CTL DD_BM_STATUS_RUNNING)
  else some dd

/-- The `DD_ASIC_BM_STATUS_CTL` case of `write_dd_regs` (lines 598-651), for a
write of `value` to the BM status/control register. -/
def write_dd_bm_ctl (dd : dd_controller) (value : Nat) : Option dd_controller :=
  bm_ctl_start
    (bm_ctl_irq (bm_ctl_reset (bm_ctl_flags (bm_ctl_set_sector dd value) value) value)) value

/-- The function `write_dd_regs(dd, address, value, mask)` for a full-word write (the source
asserts `mask == ~0`); `now` and `localtime` are as in `write_dd_cmd`. The
result is `none` when the write starts a sequencer step that faults. -/
def write_dd_regs (m : Mmio) (now : Int) (localtime : Int → tm) (dd : dd_controller)
    (address value : Nat) : Option dd_controller :=
  if address < m.MM_DD_REGS ∨ address ≥ m.MM_DD_MS_RAM then some dd
  else
    let reg := m.dd_reg address
    match reg with
    | Reg.DD_ASIC_DATA => some (dd.setReg Reg.DD_ASIC_DATA value)
    | Reg.DD_ASIC_CMD_STATUS => some (write_dd_cmd now localtime dd value)
    | Reg.DD_ASIC_BM_STATUS_CTL => write_dd_bm_ctl dd value
    | Reg.DD_ASIC_HARD_RESET => some (or_reg dd Reg.DD_ASIC_CMD_STATUS DD_STATUS_RST_STATE)
    | Reg.DD_ASIC_HOST_SECBYTE =>
      some (dd.setReg Reg.DD_ASIC_HOST_SECBYTE ((value >>> 16) &&& 0xff))
    | Reg.DD_ASIC_SEC_BYTE => some (dd.setReg Reg.DD_ASIC_SEC_BYTE ((value >>> 24) &&& 0xff))
    | _ => some (dd.setReg reg value)

/-- The function `dd_on_pi_cart_addr_write(dd, address)`. -/
def dd_on_pi_cart_addr_write (m : Mmio) (dd : dd_controller) (address : Nat) : dd_controller :=
  if address = m.MM_DD_C2S_BUFFER then
    clear_dd_interrupt
      (clear_reg dd Reg.DD_ASIC_CMD_STATUS (DD_STATUS_C2_XFER ||| DD_STATUS_BM_ERR))
      DD_STATUS_BM_INT
  else if address = m.MM_DD_DS_BUFFER then
    clear_dd_interrupt
      (clear_reg dd Reg.DD_ASIC_CMD_STATUS (DD_STATUS_DATA_RQ ||| DD_STATUS_BM_ERR))
      DD_STATUS_BM_INT
  else dd

/-! ## Auxiliary definitions for the specifications -/

/-- Start LBA of a virtual zone, the `vzone_lba` of `LBAToPhys`. -/
def vzone_start (t v : Nat) : Nat :=
  if v ≠ 0 then rd2 VZoneLBATable t (v - 1) else 0

/-- The `defect_offset` of `LBAToPhys` (lines 904-906) for physical zone `pzone`. -/
def defect_offset (d : Disk) (pzone : Nat) : Nat :=
  if pzone ≠ 0 then d.byte (d.offset_sys + (8 + pzone - 1)) else 0

/-- The `defect_amount` of `LBAToPhys` (line 909) for physical zone `pzone`. -/
def defect_amount (d : Disk) (pzone : Nat) : Nat :=
  sub16 (d.byte (d.offset_sys + (8 + pzone))) (defect_offset d pzone)

/-- First track of the band of physical zone `pzone`: the `track_zone_start` of
`LBAToPhys` (lines 894-900). -/
def zone_lo (pzone : Nat) : Nat :=
  if 7 < pzone then rd OUTERCYL_TBL (pzone - 8) else rd2flat TrackZoneTable 8 0 pzone

/-- Block of an LBA within its track (lines 869-871). -/
def block_of (lba : Nat) : Nat := if lba &&& 3 = 0 ∨ lba &&& 3 = 3 then 0 else 1

/-- Track of an LBA before defect compensation (lines 891-901): `rel` tracks
from the start of the zone, counted downwards on head 1. -/
def zone_base (pzone rel : Nat) : Nat :=
  if 7 < pzone then rd2flat TrackZoneTable 8 0 pzone - rel
  else rd2flat TrackZoneTable 8 0 pzone + rel

/-- The disk type nibble read by `LBAToPhys` (line 864). -/
def Disk.disktype (d : Disk) : Nat := d.byte (d.offset_sys + 5) &&& 0x0F

/-- Well-formed system data: the disk type nibble is one of the seven disk
types, and for each physical zone the recorded defect tracks number at most 12
and are stored in ascending order. -/
def Disk.WellFormed (d : Disk) : Prop :=
  d.disktype ≤ 6 ∧
  ∀ p, p < 16 →
    defect_amount d p ≤ 12 ∧
    ∀ i, i < defect_amount d p - 1 →
      d.byte (d.offset_sys + (0x20 + (defect_offset d p + i))) ≤
        d.byte (d.offset_sys + (0x20 + (defect_offset d p + (i + 1))))

/-- A sample SDK-format disk: type 2, two defect tracks (5 and 9) recorded for
physical zone 0 and one (40) for physical zone 1. -/
def sample_disk : Disk where
  data := fun i =>
    ([0, 0, 0, 0, 0, 2, 0, 0,
      2, 3, 3, 3, 3, 3, 3, 3,
      3, 3, 3, 3, 3, 3, 3, 3,
      0, 0, 0, 0, 0, 0, 0, 0,
      5, 9, 40] : List Nat).getD i 0
  format := DiskFormat.DISK_FORMAT_SDK
  development := 0
  offset_sys := 0
  offset_id := 0

/-- A state at the start of a transfer: the block manager is running at block
0, sector 0 of a development disk in the flat format. -/
def sample_state : dd_controller where
  regs := fun r => if r = Reg.DD_ASIC_BM_STATUS_CTL then DD_BM_STATUS_RUNNING else 0
  c2s_buf := fun _ => 0
  ds_buf := fun _ => 0
  rtc_now := 0
  rtc_last_update_rtc := 0
  bm_write := 0
  bm_reset_held := 0
  bm_block := 0
  bm_zone := 0
  bm_track_offset := 0
  lba_phys_table := fun _ => 0
  idisk := true
  disk :=
    { data := fun _ => 0, format := DiskFormat.DISK_FORMAT_MAME, development := 1,
      offset_sys := 0, offset_id := 0 }
  ip3 := false
  calls := []

/-- The bits that step `k` (counted from 1) of a read transfer ORs into the
command/status register besides the block-transfer interrupt bit. -/
def read_step_bits (k : Nat) : Nat :=
  (if k ≤ 85 then DD_STATUS_DATA_RQ else 0) ||| (if k = 89 then DD_STATUS_C2_XFER else 0)

/-- A change of state between two sequencer steps that leaves alone everything
the read sequencing depends on. -/
def Neutral (g : dd_controller → dd_controller) : Prop :=
  ∀ s, (g s).regs Reg.DD_ASIC_BM_STATUS_CTL = s.regs Reg.DD_ASIC_BM_STATUS_CTL ∧
    (g s).regs Reg.DD_ASIC_CUR_SECTOR = s.regs Reg.DD_ASIC_CUR_SECTOR ∧
    (g s).regs Reg.DD_ASIC_CUR_TK = s.regs Reg.DD_ASIC_CUR_TK ∧
    (g s).bm_write = s.bm_write ∧
    (g s).disk.format = s.disk.format

/-- Consecutive invocations of `dd_update_bm`, `k` of them, with the change `g`
applied to the state before each; `none` when one of the invocations faults. -/
def dd_update_bm_run_with (g : dd_controller → dd_controller) :
    Nat → dd_controller → Option dd_controller
  | 0, dd => some dd
  | k + 1, dd => (dd_update_bm_run_with g k dd).bind (fun s => dd_update_bm (g s))

/-- Consecutive invocations of `dd_update_bm`, `k` of them, nothing else
touching the state; `none` when one of the invocations faults. -/
def dd_update_bm_run (k : Nat) (dd : dd_controller) : Option dd_controller :=
  dd_update_bm_run_with id k dd

/-- A state in which the track-6 case applies: a retail disk, block 0, track
register 6, read direction, running, sector index 17. -/
def track6_state : dd_controller :=
  { sample_state with
    regs := fun r =>
      if r = Reg.DD_ASIC_BM_STATUS_CTL then DD_BM_STATUS_RUNNING
      else if r = Reg.DD_ASIC_CUR_TK then 6 ||| DD_TRACK_LOCK
      else if r = Reg.DD_ASIC_CUR_SECTOR then 17
      else if r = Reg.DD_ASIC_CMD_STATUS then DD_STATUS_DATA_RQ
      else 0
    disk := { sample_state.disk with development := 0 } }

/-- A sample address map: register window at `0x05000500..0x0500057f`, one
register per 32-bit word, in the order command/status at word 2, BM
status/control at word 4. -/
def sample_mmio : Mmio where
  MM_DD_REGS := 0x05000500
  MM_DD_MS_RAM := 0x05000580
  MM_DD_C2S_BUFFER := 0x05000000
  MM_DD_DS_BUFFER := 0x05000400
  dd_reg := fun address =>
    match (address &&& 0xff) >>> 2 with
    | 0 => Reg.DD_ASIC_DATA
    | 2 => Reg.DD_ASIC_CMD_STATUS
    | 3 => Reg.DD_ASIC_CUR_TK
    | 4 => Reg.DD_ASIC_BM_STATUS_CTL
    | 7 => Reg.DD_ASIC_CUR_SECTOR
    | 8 => Reg.DD_ASIC_HARD_RESET
    | 10 => Reg.DD_ASIC_HOST_SECBYTE
    | 12 => Reg.DD_ASIC_SEC_BYTE
    | 16 => Reg.DD_ASIC_ID_REG
    | n => Reg.other n

/-- A sample `localtime`: every time maps to 12:34:56 on 30 October of year
126 (counted from 1900). -/
def sample_localtime : Int → tm := fun _ =>
  { tm_sec := 56, tm_min := 34, tm_hour := 12, tm_mday := 30, tm_mon := 9, tm_year := 126 }

/-- The disk presence test of `read_dd_regs` (lines 491-499): the
command/status register with the disk-present bit refreshed. -/
def refresh_disk_pres (dd : dd_controller) : dd_controller :=
  if dd.idisk then or_reg dd Reg.DD_ASIC_CMD_STATUS DD_STATUS_DISK_PRES
  else clear_reg dd Reg.DD_ASIC_CMD_STATUS DD_STATUS_DISK_PRES

/-- A read transfer stopped after its last data sector: running, sector index
85, block-transfer interrupt pending. -/
def sector85_state : dd_controller :=
  { sample_state with
    regs := fun r =>
      if r = Reg.DD_ASIC_BM_STATUS_CTL then DD_BM_STATUS_RUNNING
      else if r = Reg.DD_ASIC_CUR_SECTOR then 85
      else if r = Reg.DD_ASIC_CMD_STATUS then DD_STATUS_BM_INT ||| DD_STATUS_DISK_PRES
      else 0 }

/-- A write transfer on a flat-format disk about to store data sector 0 of
block 0 on track 0: running, write direction, sector index 1. The disk records
its system data in block 1 (offset `0x4D08`) and its disk ID in block 14. -/
def mame_write_state : dd_controller :=
  { sample_state with
    regs := fun r =>
      if r = Reg.DD_ASIC_BM_STATUS_CTL then DD_BM_STATUS_RUNNING
      else if r = Reg.DD_ASIC_CUR_SECTOR then 1
      else 0
    bm_write := 1
    disk := { sample_state.disk with offset_sys := 0x4D08, offset_id := 14 * 0x4D08 } }

/-- The table `GenerateLBAToPhysTable` fills in for the sample SDK disk. -/
def sample_lba_phys_table : Nat → Nat := GenerateLBAToPhysTable sample_disk (fun _ => 0)

/-- A write transfer on the sample SDK disk about to store data sector 0 of
block 0 on track 1 of head 0 (LBA 3 of that disk): running, write direction,
sector index 1, the LBA table generated from the disk. -/
def sdk_write_state : dd_controller :=
  { sample_state with
    regs := fun r =>
      if r = Reg.DD_ASIC_BM_STATUS_CTL then DD_BM_STATUS_RUNNING
      else if r = Reg.DD_ASIC_CUR_SECTOR then 1
      else if r = Reg.DD_ASIC_CUR_TK then 1 ||| DD_TRACK_LOCK
      else 0
    bm_write := 1
    lba_phys_table := sample_lba_phys_table
    disk := sample_disk }

/-- The physical zone of an LBA as C20 words it: `VZONE_PZONE_TBL[t][v]` for
the virtual zone `v = LBAToVZoneA(t, lba)`, reduced by 7 when it exceeds 7. -/
def phys_zone (t lba : Nat) : Nat :=
  if 7 < rd2 VZONE_PZONE_TBL t (LBAToVZoneA t lba) then
    rd2 VZONE_PZONE_TBL t (LBAToVZoneA t lba) - 7
  else rd2 VZONE_PZONE_TBL t (LBAToVZoneA t lba)

/-- The naive per-block byte total of C20: the sum over `i` in
`[lba, lba + nlbas)` of `85 * zone_sec_size_phys[pz(i)]`. -/
def LBAToByte_naive (t lba nlbas : Nat) : Nat :=
  ((List.range' lba nlbas).map (fun i => 85 * rd zone_sec_size_phys (phys_zone t i))).sum

/-- A state whose sector-size register matches its zone: zone 0 (232-byte
sectors), `HOST_SECBYTE = 231`, the data buffer holding the bytes
`ds_buf[a] = a mod 256`. -/
def sector_io_state : dd_controller :=
  { sample_state with
    regs := fun r => if r = Reg.DD_ASIC_HOST_SECBYTE then 231 else 0
    ds_buf := fun a => a % 256
    bm_track_offset := 0x4D08 }

/-! ## Theorems -/

theorem LBAToVZoneA_loop_spec (type lba : Nat) :
    ∀ n k, n + k = 16 →
      (LBAToVZoneA_loop type lba n k = 0xFFFFFFFF ∧
        ∀ j, k ≤ j → j < 16 → rd2 VZoneLBATable (type &&& 0x0F) j ≤ lba) ∨
      (k ≤ LBAToVZoneA_loop type lba n k ∧ LBAToVZoneA_loop type lba n k < 16 ∧
        lba < rd2 VZoneLBATable (type &&& 0x0F) (LBAToVZoneA_loop type lba n k) ∧
        ∀ j, k ≤ j → j < LBAToVZoneA_loop type lba n k →
          rd2 VZoneLBATable (type &&& 0x0F) j ≤ lba) := by
  intro n
  induction n with
  | zero =>
    intro k hk
    left
    refine ⟨rfl, ?_⟩
    intro j h1 h2
    omega
  | succ n ih =>
    intro k hk
    unfold LBAToVZoneA_loop
    by_cases hlt : lba < rd2 VZoneLBATable (type &&& 0x0F) k
    · right
      rw [if_pos hlt]
      refine ⟨le_refl _, by omega, hlt, ?_⟩
      intro j h1 h2
      omega
    · rw [if_neg hlt]
      have hstep : ∀ j, k ≤ j → j ≠ k → k + 1 ≤ j := by intro j h1 h2; omega
      rcases ih (k + 1) (by omega) with ⟨h1, h2⟩ | ⟨h1, h2, h3, h4⟩
      · left
        refine ⟨h1, ?_⟩
        intro j hj1 hj2
        by_cases hjk : j = k
        · subst hjk; omega
        · exact h2 j (hstep j hj1 hjk) hj2
      · right
        refine ⟨by omega, h2, h3, ?_⟩
        intro j hj1 hj2
        by_cases hjk : j = k
        · subst hjk; omega
        · exact h4 j (hstep j hj1 hjk) hj2

theorem VZoneLBATable_last : ∀ t, t < 7 → rd2 VZoneLBATable t 15 = 0x10DC := by decide

theorem LBAToVZoneA_spec (type lba : Nat) (ht : type &&& 0x0F ≤ 6) (hl : lba ≤ MAX_LBA) :
    LBAToVZoneA type lba < 16 ∧
    vzone_start (type &&& 0x0F) (LBAToVZoneA type lba) ≤ lba ∧
    lba < rd2 VZoneLBATable (type &&& 0x0F) (LBAToVZoneA type lba) := by
  have hlast := VZoneLBATable_last (type &&& 0x0F) (by omega)
  unfold MAX_LBA at hl
  rcases LBAToVZoneA_loop_spec type lba 16 0 rfl with ⟨_, h2⟩ | ⟨_, h2, h3, h4⟩
  · have := h2 15 (by omega) (by omega)
    omega
  · refine ⟨h2, ?_, h3⟩
    unfold vzone_start
    split_ifs with hv
    · exact h4 _ (by omega) (by unfold LBAToVZoneA at hv ⊢; omega)
    · omega

/-- Table facts used by the geometry proofs, checked entry by entry. -/
theorem zone_table_facts :
    ∀ t, t < 7 → ∀ v, v < 16 →
      vzone_start t v % 2 = 0 ∧
      rd2 VZoneLBATable t v = vzone_start t v + 2 * (rd ZoneTracks (VZoneToPZone v t) - 12) ∧
      VZoneToPZone v t < 16 := by decide

theorem VZoneToPZone_inj :
    ∀ t, t < 7 → ∀ v, v < 16 → ∀ w, w < 16 →
      VZoneToPZone v t = VZoneToPZone w t → v = w := by decide

theorem track_table_facts :
    ∀ p, p < 16 →
      13 ≤ rd ZoneTracks p ∧ zone_lo p + rd ZoneTracks p ≤ 1200 ∧
      (7 < p → rd2flat TrackZoneTable 8 0 p + 13 = zone_lo p + rd ZoneTracks p) ∧
      (¬ 7 < p → rd2flat TrackZoneTable 8 0 p = zone_lo p) := by decide

theorem zone_bands_disjoint :
    ∀ p, p < 16 → ∀ q, q < 16 → (7 < p ↔ 7 < q) → p ≠ q →
      zone_lo p + rd ZoneTracks p ≤ zone_lo q ∨ zone_lo q + rd ZoneTracks q ≤ zone_lo p := by
  decide

theorem skip_defects_ge (d : Disk) (s : Nat) :
    ∀ n o t, t + n < 65536 → t ≤ skip_defects d s n o t := by
  intro n
  induction n with
  | zero => intro o t _; simp [skip_defects]
  | succ n ih =>
    intro o t h
    unfold skip_defects
    split_ifs
    · have h1 : u16 (t + 1) = t + 1 := by unfold u16; omega
      rw [h1]
      have := ih (u16 (o + 1)) (t + 1) (by omega)
      omega
    · exact le_refl _

theorem skip_defects_le (d : Disk) (s : Nat) :
    ∀ n o t, t + n < 65536 → skip_defects d s n o t ≤ t + n := by
  intro n
  induction n with
  | zero => intro o t _; simp [skip_defects]
  | succ n ih =>
    intro o t h
    unfold skip_defects
    split_ifs
    · have h1 : u16 (t + 1) = t + 1 := by unfold u16; omega
      rw [h1]
      have := ih (u16 (o + 1)) (t + 1) (by omega)
      omega
    · omega

theorem skip_defects_lt (d : Disk) (s : Nat) :
    ∀ n o t t2, t < t2 → t2 + n < 65536 →
      skip_defects d s n o t < skip_defects d s n o t2 := by
  intro n
  induction n with
  | zero => intro o t t2 h _; simpa [skip_defects] using h
  | succ n ih =>
    intro o t t2 h hb
    have h1 : u16 (t + 1) = t + 1 := by unfold u16; omega
    have h2 : u16 (t2 + 1) = t2 + 1 := by unfold u16; omega
    unfold skip_defects
    by_cases hc : d.byte (d.offset_sys + (0x20 + o)) + s ≤ t
    · have hc2 : d.byte (d.offset_sys + (0x20 + o)) + s ≤ t2 := by omega
      rw [if_pos hc, if_pos hc2, h1, h2]
      exact ih _ _ _ (by omega) (by omega)
    · rw [if_neg hc]
      split_ifs
      · rw [h2]
        have := skip_defects_ge d s n (u16 (o + 1)) (t2 + 1) (by omega)
        omega
      · exact h

theorem or_pack (t h b : Nat) (ht : t < 4096) (hh : h < 2) :
    t ||| h * 0x1000 ||| b * 0x2000 = t + 4096 * h + 8192 * b := by
  have e1 : t ||| h * 0x1000 = t + 4096 * h := by
    have := Nat.mul_add_lt_is_or (i := 12) (b := t) (by simpa using ht) h
    rw [Nat.or_comm, Nat.mul_comm h, ← this]; omega
  rw [e1]
  have := Nat.mul_add_lt_is_or (i := 13) (b := t + 4096 * h) (by norm_num; omega) b
  rw [Nat.or_comm, Nat.mul_comm b, ← this]; omega

theorem LBAToPhys_eq (d : Disk) (lba : Nat) (ht : d.disktype ≤ 6)
    (hd : ∀ p, p < 16 → defect_amount d p ≤ 12) (hl : lba ≤ MAX_LBA) :
    LBAToVZone d lba < 16 ∧
    vzone_start d.disktype (LBAToVZone d lba) ≤ lba ∧
    lba < rd2 VZoneLBATable d.disktype (LBAToVZone d lba) ∧
    LBAToPhys d lba =
      skip_defects d (zone_lo (VZoneToPZone (LBAToVZone d lba) d.disktype))
        (defect_amount d (VZoneToPZone (LBAToVZone d lba) d.disktype))
        (defect_offset d (VZoneToPZone (LBAToVZone d lba) d.disktype))
        (zone_base (VZoneToPZone (LBAToVZone d lba) d.disktype)
          ((lba - vzone_start d.disktype (LBAToVZone d lba)) / 2))
      + 4096 * (if 7 < VZoneToPZone (LBAToVZone d lba) d.disktype then 1 else 0)
      + 8192 * block_of lba := by
  have hty : d.byte (5 + d.offset_sys) &&& 0x0F = d.disktype := by
    unfold Disk.disktype; rw [Nat.add_comm]
  obtain ⟨hv, hs, he⟩ := LBAToVZoneA_spec (d.byte (5 + d.offset_sys)) lba
    (by rw [hty]; exact ht) hl
  rw [hty] at hs he
  have hvz : LBAToVZoneA (d.byte (5 + d.offset_sys)) lba = LBAToVZone d lba := rfl
  rw [hvz] at hv hs he
  refine ⟨hv, hs, he, ?_⟩
  obtain ⟨hev, hsz, hp⟩ := zone_table_facts d.disktype (by omega) _ hv
  obtain ⟨hzt, hhi, hT1, hT0⟩ := track_table_facts _ hp
  have hamt := hd _ hp
  unfold MAX_LBA at hl
  simp only [LBAToPhys]
  have hty2 : d.byte (d.offset_sys + 5) &&& 0x0F = d.disktype := rfl
  rw [hty2]
  have e1 : u16 (LBAToVZone d lba) = LBAToVZone d lba := by unfold u16; omega
  rw [e1]
  have e2 : u16 (VZoneToPZone (LBAToVZone d lba) d.disktype)
      = VZoneToPZone (LBAToVZone d lba) d.disktype := by unfold u16; omega
  rw [e2]
  have e3 : (if LBAToVZone d lba ≠ 0 then rd2 VZoneLBATable d.disktype (LBAToVZone d lba - 1)
      else 0) = vzone_start d.disktype (LBAToVZone d lba) := rfl
  rw [e3]
  generalize LBAToVZone d lba = v at *
  generalize hpdef : VZoneToPZone v d.disktype = p at *
  generalize hsdef : vzone_start d.disktype v = s at *
  have e4 : u16 (sub32 lba s >>> 1) = (lba - s) / 2 := by
    unfold u16 sub32; rw [Nat.shiftRight_eq_div_pow]; omega
  rw [e4]
  have e5 : (if p ≠ 0 then d.byte (d.offset_sys + (8 + p - 1)) else 0) = defect_offset d p := rfl
  rw [e5]
  have e6 : sub16 (d.byte (d.offset_sys + (8 + p))) (defect_offset d p) = defect_amount d p := rfl
  rw [e6]
  have e7 : (if lba &&& 3 = 0 ∨ lba &&& 3 = 3 then 0 else 1) = block_of lba := rfl
  rw [e7]
  have hrel : (lba - s) / 2 < rd ZoneTracks p - 12 := by omega
  by_cases hh : 7 < p
  · have hT := hT1 hh
    have hlo : zone_lo p = rd OUTERCYL_TBL (p - 8) := by unfold zone_lo; rw [if_pos hh]
    have e8 : sub16 p 7 - 1 = p - 8 := by unfold sub16; omega
    have e9 : u16 (sub16 0 ((lba - s) / 2) + rd2flat TrackZoneTable 8 0 p)
        = zone_base p ((lba - s) / 2) := by
      unfold zone_base u16 sub16; rw [if_pos hh]; omega
    have hp0 : p ≠ 0 := by omega
    simp only [if_pos hh, if_pos hp0, e8, e9, ← hlo, one_ne_zero, ne_eq, not_false_eq_true,
      if_true]
    have hzb : zone_base p ((lba - s) / 2) + 12 < zone_lo p + rd ZoneTracks p := by
      unfold zone_base; rw [if_pos hh]; omega
    have hle := skip_defects_le d (zone_lo p) (defect_amount d p) (defect_offset d p)
      (zone_base p ((lba - s) / 2)) (by omega)
    rw [or_pack _ 1 _ (by omega) (by omega)]
    unfold u16 block_of
    split_ifs <;> omega
  · have hT := hT0 hh
    have e9 : u16 ((lba - s) / 2 + rd2flat TrackZoneTable 8 0 p)
        = zone_base p ((lba - s) / 2) := by
      unfold zone_base u16; rw [if_neg hh]; omega
    simp only [if_neg hh, e9, ne_eq, not_true_eq_false, if_false]
    rw [hT]
    have hzb : zone_base p ((lba - s) / 2) + 12 < zone_lo p + rd ZoneTracks p := by
      unfold zone_base; rw [if_neg hh]; omega
    have hle := skip_defects_le d (zone_lo p) (defect_amount d p) (defect_offset d p)
      (zone_base p ((lba - s) / 2)) (by omega)
    rw [or_pack _ 0 _ (by omega) (by omega)]
    unfold u16 block_of
    split_ifs <;> omega

theorem and_three (x : Nat) : x &&& 3 = x % 4 := Nat.and_pow_two_sub_one_eq_mod x 2

theorem zone_base_bounds (p rel : Nat) (hp : p < 16) (hrel : rel < rd ZoneTracks p - 12) :
    zone_lo p ≤ zone_base p rel ∧ zone_base p rel + 12 < zone_lo p + rd ZoneTracks p ∧
    zone_lo p + rd ZoneTracks p ≤ 1200 := by
  obtain ⟨hzt, hhi, hT1, hT0⟩ := track_table_facts p hp
  unfold zone_base
  split_ifs with hh
  · have := hT1 hh; omega
  · have := hT0 hh; omega

theorem track_in_band (d : Disk) (s n o p rel : Nat) (hp : p < 16)
    (hrel : rel < rd ZoneTracks p - 12) (hn : n ≤ 12) :
    zone_lo p ≤ skip_defects d s n o (zone_base p rel) ∧
    skip_defects d s n o (zone_base p rel) < zone_lo p + rd ZoneTracks p ∧
    zone_lo p + rd ZoneTracks p ≤ 1200 := by
  obtain ⟨h1, h2, h3⟩ := zone_base_bounds p rel hp hrel
  have h4 := skip_defects_ge d s n o (zone_base p rel) (by omega)
  have h5 := skip_defects_le d s n o (zone_base p rel) (by omega)
  omega

theorem track_rel_inj (d : Disk) (s n o p r1 r2 : Nat) (hp : p < 16)
    (h1 : r1 < rd ZoneTracks p - 12) (h2 : r2 < rd ZoneTracks p - 12) (hn : n ≤ 12)
    (h : skip_defects d s n o (zone_base p r1) = skip_defects d s n o (zone_base p r2)) :
    r1 = r2 := by
  obtain ⟨hzt, hhi, hT1, hT0⟩ := track_table_facts p hp
  obtain ⟨_, hb1, _⟩ := zone_base_bounds p r1 hp h1
  obtain ⟨_, hb2, _⟩ := zone_base_bounds p r2 hp h2
  by_contra hne
  by_cases h7 : 7 < p
  · have hT := hT1 h7
    have e1 : zone_base p r1 = rd2flat TrackZoneTable 8 0 p - r1 := by
      unfold zone_base; rw [if_pos h7]
    have e2 : zone_base p r2 = rd2flat TrackZoneTable 8 0 p - r2 := by
      unfold zone_base; rw [if_pos h7]
    rcases Nat.lt_or_gt_of_ne hne with hlt | hlt
    · have := skip_defects_lt d s n o (zone_base p r2) (zone_base p r1) (by omega) (by omega)
      omega
    · have := skip_defects_lt d s n o (zone_base p r1) (zone_base p r2) (by omega) (by omega)
      omega
  · have e1 : zone_base p r1 = rd2flat TrackZoneTable 8 0 p + r1 := by
      unfold zone_base; rw [if_neg h7]
    have e2 : zone_base p r2 = rd2flat TrackZoneTable 8 0 p + r2 := by
      unfold zone_base; rw [if_neg h7]
    rcases Nat.lt_or_gt_of_ne hne with hlt | hlt
    · have := skip_defects_lt d s n o (zone_base p r1) (zone_base p r2) (by omega) (by omega)
      omega
    · have := skip_defects_lt d s n o (zone_base p r2) (zone_base p r1) (by omega) (by omega)
      omega

theorem block_of_lt (x : Nat) : block_of x < 2 := by
  unfold block_of; split_ifs <;> omega

theorem lba_of_rel_block (s a b : Nat) (hs : s % 2 = 0) (ha : s ≤ a) (hb : s ≤ b)
    (hr : (a - s) / 2 = (b - s) / 2) (hk : block_of a = block_of b) : a = b := by
  unfold block_of at hk
  rw [and_three, and_three] at hk
  split_ifs at hk <;> omega

theorem unpack_eq (t1 h1 b1 t2 h2 b2 : Nat) (ht1 : t1 < 4096) (ht2 : t2 < 4096)
    (hh1 : h1 < 2) (hh2 : h2 < 2)
    (h : t1 + 4096 * h1 + 8192 * b1 = t2 + 4096 * h2 + 8192 * b2) :
    t1 = t2 ∧ h1 = h2 ∧ b1 = b2 := by omega

/-- Summary of `LBAToPhys` on an addressable LBA of a disk with a valid type
and at most 12 defects per zone. -/
theorem LBAToPhys_summary (d : Disk) (lba : Nat) (ht : d.disktype ≤ 6)
    (hd : ∀ p, p < 16 → defect_amount d p ≤ 12) (hl : lba ≤ MAX_LBA) :
    ∃ v p s rel, v < 16 ∧ p < 16 ∧ p = VZoneToPZone v d.disktype ∧
      s = vzone_start d.disktype v ∧ s % 2 = 0 ∧ s ≤ lba ∧ rel = (lba - s) / 2 ∧
      rel < rd ZoneTracks p - 12 ∧
      LBAToPhys d lba =
        skip_defects d (zone_lo p) (defect_amount d p) (defect_offset d p) (zone_base p rel)
        + 4096 * (if 7 < p then 1 else 0) + 8192 * block_of lba := by
  obtain ⟨hv, hs, he, hP⟩ := LBAToPhys_eq d lba ht hd hl
  obtain ⟨hev, hsz, hp⟩ := zone_table_facts d.disktype (by omega) _ hv
  refine ⟨_, _, _, _, hv, hp, rfl, rfl, hev, hs, rfl, ?_, hP⟩
  omega

theorem head_lt (p : Nat) : (if 7 < p then 1 else 0) < 2 := by
  split_ifs <;> omega

theorem LBAToPhys_inj (d : Disk) (ht : d.disktype ≤ 6)
    (hd : ∀ p, p < 16 → defect_amount d p ≤ 12) (a b : Nat)
    (ha : a ≤ MAX_LBA) (hb : b ≤ MAX_LBA) (h : LBAToPhys d a = LBAToPhys d b) : a = b := by
  obtain ⟨va, pa, sa, ra, hva, hpa, hpva, hsva, heva, hsa, hra, hrela, hPa⟩ :=
    LBAToPhys_summary d a ht hd ha
  obtain ⟨vb, pb, sb, rb, hvb, hpb, hpvb, hsvb, hevb, hsb, hrb, hrelb, hPb⟩ :=
    LBAToPhys_summary d b ht hd hb
  rw [hPa, hPb] at h
  obtain ⟨ba1, ba2, ba3⟩ := track_in_band d (zone_lo pa) (defect_amount d pa)
    (defect_offset d pa) pa ra hpa hrela (hd pa hpa)
  obtain ⟨bb1, bb2, bb3⟩ := track_in_band d (zone_lo pb) (defect_amount d pb)
    (defect_offset d pb) pb rb hpb hrelb (hd pb hpb)
  obtain ⟨htrk, hhead, hblk⟩ := unpack_eq _ _ _ _ _ _ (by omega) (by omega)
    (head_lt pa) (head_lt pb) h
  have hhd : (7 < pa ↔ 7 < pb) := by
    constructor <;> intro h7 <;> by_contra h8 <;> simp [h7, h8] at hhead
  have hpp : pa = pb := by
    by_contra hne
    rcases zone_bands_disjoint _ hpa _ hpb hhd hne with h1 | h1 <;> omega
  subst hpp
  have hvv : va = vb :=
    VZoneToPZone_inj d.disktype (by omega) _ hva _ hvb (by rw [← hpva, ← hpvb])
  subst hvv
  have hss : sa = sb := by rw [hsva, hsvb]
  subst hss
  have hrr : ra = rb := track_rel_inj d _ _ _ pa ra rb hpa hrela hrelb (hd pa hpa) htrk
  exact lba_of_rel_block sa a b heva hsa hsb (by rw [← hra, ← hrb, hrr]) hblk

theorem GenerateLBAToPhysTable_loop_eq (d : Disk) :
    ∀ n lba table i,
      GenerateLBAToPhysTable_loop d n lba table i =
        if lba ≤ i ∧ i < lba + n then LBAToPhys d i else table i := by
  intro n
  induction n with
  | zero =>
    intro lba table i
    have : ¬ (lba ≤ i ∧ i < lba + 0) := by omega
    rw [if_neg this]
    rfl
  | succ n ih =>
    intro lba table i
    unfold GenerateLBAToPhysTable_loop
    rw [ih]
    by_cases h1 : i = lba
    · subst h1
      have h2 : ¬ (i + 1 ≤ i ∧ i < i + 1 + n) := by omega
      have h3 : i ≤ i ∧ i < i + (n + 1) := by omega
      simp [h2, h3]
    · by_cases h2 : lba ≤ i ∧ i < lba + (n + 1)
      · have h3 : lba + 1 ≤ i ∧ i < lba + 1 + n := by omega
        simp [h2, h3]
      · have h3 : ¬ (lba + 1 ≤ i ∧ i < lba + 1 + n) := by omega
        simp [h1, h2, h3]

theorem PhysToLBA_loop_first (table : Nat → Nat) (key l : Nat) (hl : table l = key) :
    ∀ n k, k ≤ l → l < k + n → (∀ j, k ≤ j → j < l → table j ≠ key) →
      PhysToLBA_loop table key n k = l := by
  intro n
  induction n with
  | zero => intro k h1 h2 _; omega
  | succ n ih =>
    intro k h1 h2 h3
    unfold PhysToLBA_loop
    by_cases hk : k = l
    · subst hk; rw [if_pos hl]
    · rw [if_neg (h3 k (le_refl _) (by omega))]
      exact ih (k + 1) (by omega) (by omega) (fun j hj1 hj2 => h3 j (by omega) hj2)

theorem phys_repack (p : Nat) (hp : p < 16384) :
    u16 ((p &&& 0x0FFF) ||| ((p >>> 12) &&& 1) * 0x1000 ||| ((p >>> 13) &&& 1) * 0x2000) = p := by
  have h1 : p &&& 0x0FFF = p % 4096 := Nat.and_pow_two_sub_one_eq_mod p 12
  rw [h1, Nat.and_one_is_mod, Nat.and_one_is_mod, Nat.shiftRight_eq_div_pow,
    Nat.shiftRight_eq_div_pow, or_pack _ _ _ (by omega) (by omega)]
  unfold u16
  omega

theorem LBAToPhys_lt (d : Disk) (lba : Nat) (ht : d.disktype ≤ 6)
    (hd : ∀ p, p < 16 → defect_amount d p ≤ 12) (hl : lba ≤ MAX_LBA) :
    LBAToPhys d lba < 16384 := by
  obtain ⟨v, p, s, r, hv, hp, hpv, hsv, hev, hs, hr, hrel, hP⟩ :=
    LBAToPhys_summary d lba ht hd hl
  obtain ⟨b1, b2, b3⟩ := track_in_band d (zone_lo p) (defect_amount d p)
    (defect_offset d p) p r hp hrel (hd p hp)
  have h1 := head_lt p
  have h2 := block_of_lt lba
  rw [hP]
  omega

/-- C1: on an LBA-addressed disk with well-formed system data, for every LBA
`l` in `[0, MAX_LBA]`, splitting `LBAToPhys(l)` into track (low 12 bits), head
(bit 12) and block (bit 13) and looking the triple up with `PhysToLBA` in the
table built by `GenerateLBAToPhysTable` gives back `l`. -/
theorem PhysToLBA_LBAToPhys_roundtrip (d : Disk) (table : Nat → Nat)
    (hfmt : d.format = DiskFormat.DISK_FORMAT_SDK) (hwf : d.WellFormed)
    (l : Nat) (hl : l ≤ MAX_LBA) :
    PhysToLBA (GenerateLBAToPhysTable d table)
      ((LBAToPhys d l >>> 12) &&& 1) (LBAToPhys d l &&& 0x0FFF)
      ((LBAToPhys d l >>> 13) &&& 1) = l := by
  have ht := hwf.1
  have hd : ∀ p, p < 16 → defect_amount d p ≤ 12 := fun p hp => (hwf.2 p hp).1
  have hfm : ¬ d.format = DiskFormat.DISK_FORMAT_MAME := by rw [hfmt]; decide
  have htab : ∀ i, i < SIZE_LBA → GenerateLBAToPhysTable d table i = LBAToPhys d i := by
    intro i hi
    unfold GenerateLBAToPhysTable
    rw [if_neg hfm, GenerateLBAToPhysTable_loop_eq]
    rw [if_pos ⟨Nat.zero_le _, by omega⟩]
  unfold PhysToLBA
  simp only []
  rw [phys_repack _ (LBAToPhys_lt d l ht hd hl)]
  have hl2 : l < SIZE_LBA := by unfold SIZE_LBA; omega
  apply PhysToLBA_loop_first _ _ l (htab l hl2) SIZE_LBA 0 (Nat.zero_le _) (by omega)
  intro j _ hj heq
  have hj2 : j < SIZE_LBA := by omega
  rw [htab j hj2] at heq
  have := LBAToPhys_inj d ht hd j l (by unfold SIZE_LBA at hj2; omega) hl heq
  omega

theorem PhysToLBA_LBAToPhys_roundtrip_witness :
    sample_disk.format = DiskFormat.DISK_FORMAT_SDK ∧ sample_disk.WellFormed ∧ 7 ≤ MAX_LBA ∧
    PhysToLBA (GenerateLBAToPhysTable sample_disk (fun _ => 0))
      ((LBAToPhys sample_disk 7 >>> 12) &&& 1) (LBAToPhys sample_disk 7 &&& 0x0FFF)
      ((LBAToPhys sample_disk 7 >>> 13) &&& 1) = 7 :=
  ⟨rfl, by unfold Disk.WellFormed; decide, by decide,
    PhysToLBA_LBAToPhys_roundtrip sample_disk (fun _ => 0) rfl
      (by unfold Disk.WellFormed; decide) 7 (by decide)⟩

theorem and_or_of_disjoint (x m k : Nat) (h : m &&& k = 0) : (x ||| m) &&& k = x &&& k := by
  rw [Nat.and_distrib_right, h, Nat.or_zero]

theorem and_clear_of_disjoint (x m k : Nat) (h : not32 m &&& k = k) :
    (x &&& not32 m) &&& k = x &&& k := by
  rw [Nat.and_assoc, h]

theorem and_clear_self (x m k : Nat) (h : not32 m &&& k = 0) : (x &&& not32 m) &&& k = 0 := by
  rw [Nat.and_assoc, h, Nat.and_zero]

theorem and_or_self (x m : Nat) : (x ||| m) &&& m = m := by
  apply Nat.eq_of_testBit_eq; intro i
  rw [Nat.testBit_and, Nat.testBit_or]
  cases x.testBit i <;> cases m.testBit i <;> rfl

theorem LBAToByteA_succ (type lba n : Nat) : LBAToByteA type lba (n + 1) = none := by
  unfold LBAToByteA LBAToByteA_loop
  simp [LBAToByteA_zone, LBAToVZone_of_type]

theorem LBAToByteA_zero (type lba : Nat) : LBAToByteA type lba 0 = some 0 := rfl

theorem LBAToByte_eq (d : Disk) (lba nlbas : Nat) :
    LBAToByte d lba nlbas = if nlbas = 0 then some 0 else none := by
  unfold LBAToByte
  cases nlbas with
  | zero => rfl
  | succ n => rw [LBAToByteA_succ]; rfl

theorem check_system_blocks_frame (x : dd_controller) (c : Prop) [Decidable c] :
    (if c then check_system_blocks x else x).bm_track_offset = x.bm_track_offset ∧
    (if c then check_system_blocks x else x).bm_zone = x.bm_zone := by
  unfold check_system_blocks dd_controller.setReg
  simp only []
  split_ifs <;> exact ⟨rfl, rfl⟩

/-- What the system-block cross-check leaves alone, and what it may change. -/
theorem check_system_blocks_regs (x : dd_controller) (c : Prop) [Decidable c] :
    (∀ r, r ≠ Reg.DD_ASIC_BM_STATUS_CTL →
      (if c then check_system_blocks x else x).regs r = x.regs r) ∧
    ((if c then check_system_blocks x else x).regs Reg.DD_ASIC_BM_STATUS_CTL =
        x.regs Reg.DD_ASIC_BM_STATUS_CTL ∨
      (if c then check_system_blocks x else x).regs Reg.DD_ASIC_BM_STATUS_CTL =
        x.regs Reg.DD_ASIC_BM_STATUS_CTL ||| DD_BM_STATUS_MICRO) ∧
    (if c then check_system_blocks x else x).bm_write = x.bm_write ∧
    (if c then check_system_blocks x else x).bm_block = x.bm_block ∧
    (if c then check_system_blocks x else x).bm_reset_held = x.bm_reset_held ∧
    (if c then check_system_blocks x else x).disk = x.disk ∧
    (if c then check_system_blocks x else x).ds_buf = x.ds_buf ∧
    (if c then check_system_blocks x else x).c2s_buf = x.c2s_buf ∧
    (if c then check_system_blocks x else x).ip3 = x.ip3 ∧
    (if c then check_system_blocks x else x).calls = x.calls := by
  unfold check_system_blocks dd_controller.setReg
  simp only []
  split_ifs <;> simp_all

/-- The LBA-addressed branch of `seek_track` returns exactly when the
coordinate resolves to LBA 0. -/
theorem seek_track_sdk_eq (dd : dd_controller) :
    seek_track_sdk dd =
      if seek_track_lba dd = 0 then
        some (if u16 (sub32 (dd.regs Reg.DD_ASIC_CUR_SECTOR) dd.bm_write) = 0 then
          check_system_blocks
            ({ dd with
                bm_track_offset :=
                  u32 (0 + u16 (sub32 (dd.regs Reg.DD_ASIC_CUR_SECTOR) dd.bm_write) *
                    u16 (dd.regs Reg.DD_ASIC_HOST_SECBYTE + 1)) } : dd_controller)
        else
          ({ dd with
              bm_track_offset :=
                u32 (0 + u16 (sub32 (dd.regs Reg.DD_ASIC_CUR_SECTOR) dd.bm_write) *
                  u16 (dd.regs Reg.DD_ASIC_HOST_SECBYTE + 1)) } : dd_controller))
      else none := by
  unfold seek_track_sdk
  simp only [LBAToByte_eq]
  split_ifs <;> rfl

/-- The state `seek_track` hands on, by disk format. -/
theorem seek_track_eq (dd : dd_controller) :
    (dd.disk.format = DiskFormat.DISK_FORMAT_MAME →
      seek_track dd = some (seek_track_mame { dd with calls := dd.calls ++
        [Call.seek_track dd.bm_block (sub32 (dd.regs Reg.DD_ASIC_CUR_SECTOR) dd.bm_write)] })) ∧
    (dd.disk.format = DiskFormat.DISK_FORMAT_SDK →
      seek_track dd = seek_track_sdk { dd with calls := dd.calls ++
        [Call.seek_track dd.bm_block (sub32 (dd.regs Reg.DD_ASIC_CUR_SECTOR) dd.bm_write)] }) ∧
    (dd.disk.format = DiskFormat.DISK_FORMAT_D64 →
      seek_track dd = some { dd with calls := dd.calls ++
        [Call.seek_track dd.bm_block (sub32 (dd.regs Reg.DD_ASIC_CUR_SECTOR) dd.bm_write)] }) := by
  refine ⟨?_, ?_, ?_⟩ <;> intro hf <;> unfold seek_track <;> simp [hf]

/-- On a disk that is not in the LBA-addressed format, `seek_track` returns. -/
theorem seek_track_some (dd : dd_controller)
    (hf : dd.disk.format ≠ DiskFormat.DISK_FORMAT_SDK) : ∃ s, seek_track dd = some s := by
  obtain ⟨h1, _, h3⟩ := seek_track_eq dd
  cases hd : dd.disk.format
  · exact ⟨_, h1 hd⟩
  · exact absurd hd hf
  · exact ⟨_, h3 hd⟩

/-- What `seek_track` leaves alone, and what it may change. -/
theorem seek_track_frame (dd s : dd_controller) (h : seek_track dd = some s) :
    (∀ r, r ≠ Reg.DD_ASIC_BM_STATUS_CTL → s.regs r = dd.regs r) ∧
    (s.regs Reg.DD_ASIC_BM_STATUS_CTL = dd.regs Reg.DD_ASIC_BM_STATUS_CTL ∨
      s.regs Reg.DD_ASIC_BM_STATUS_CTL =
        dd.regs Reg.DD_ASIC_BM_STATUS_CTL ||| DD_BM_STATUS_MICRO) ∧
    s.bm_write = dd.bm_write ∧
    s.bm_block = dd.bm_block ∧
    s.bm_reset_held = dd.bm_reset_held ∧
    s.disk = dd.disk ∧
    s.ds_buf = dd.ds_buf ∧
    s.c2s_buf = dd.c2s_buf ∧
    s.ip3 = dd.ip3 ∧
    s.calls = dd.calls ++
      [Call.seek_track dd.bm_block (sub32 (dd.regs Reg.DD_ASIC_CUR_SECTOR) dd.bm_write)] := by
  obtain ⟨h1, h2, h3⟩ := seek_track_eq dd
  cases hd : dd.disk.format
  · rw [h1 hd] at h
    injection h with h
    subst h
    unfold seek_track_mame
    simp only []
    exact check_system_blocks_regs _ _
  · rw [h2 hd, seek_track_sdk_eq] at h
    split at h
    · injection h with h
      subst h
      exact check_system_blocks_regs _ _
    · cases h
  · rw [h3 hd] at h
    injection h with h
    subst h
    exact ⟨fun _ _ => rfl, Or.inl rfl, rfl, rfl, rfl, rfl, rfl, rfl, rfl, rfl⟩

theorem seek_track_run_bits (dd s : dd_controller) (h : seek_track dd = some s) :
    s.regs Reg.DD_ASIC_BM_STATUS_CTL &&& DD_BM_STATUS_RUNNING =
      dd.regs Reg.DD_ASIC_BM_STATUS_CTL &&& DD_BM_STATUS_RUNNING ∧
    s.regs Reg.DD_ASIC_BM_STATUS_CTL &&& DD_BM_STATUS_BLOCK =
      dd.regs Reg.DD_ASIC_BM_STATUS_CTL &&& DD_BM_STATUS_BLOCK := by
  rcases (seek_track_frame dd s h).2.1 with h | h <;> rw [h]
  · exact ⟨rfl, rfl⟩
  · exact ⟨and_or_of_disjoint _ _ _ (by decide), and_or_of_disjoint _ _ _ (by decide)⟩

/-- The sequencer keeps the format of the attached disk. -/
theorem dd_update_bm_format (dd s : dd_controller) (h : dd_update_bm dd = some s) :
    s.disk.format = dd.disk.format := by
  unfold dd_update_bm at h
  split at h
  · injection h with h
    rw [← h]
  · obtain ⟨u, hu, rfl⟩ := Option.map_eq_some'.mp h
    have hsig : (signal_dd_interrupt u DD_STATUS_BM_INT).disk = u.disk := rfl
    rw [hsig]
    split at hu
    · unfold dd_update_bm_write at hu
      split_ifs at hu
      · injection hu with hu; rw [← hu]; rfl
      · obtain ⟨t, ht, rfl⟩ := Option.map_eq_some'.mp hu
        have := (seek_track_frame dd t ht).2.2.2.2.2.1
        simp [or_reg, inc_cur_sector, write_sector, dd_controller.setReg, this]
      · obtain ⟨t, ht, rfl⟩ := Option.map_eq_some'.mp hu
        have := (seek_track_frame dd t ht).2.2.2.2.2.1
        simp [next_block_write, or_reg, clear_reg, write_sector, dd_controller.setReg, this]
      · obtain ⟨t, ht, rfl⟩ := Option.map_eq_some'.mp hu
        have := (seek_track_frame dd t ht).2.2.2.2.2.1
        simp [clear_reg, inc_cur_sector, write_sector, dd_controller.setReg, this]
      · injection hu with hu; rw [← hu]
    · unfold dd_update_bm_read at hu
      simp only [] at hu
      split_ifs at hu
      · injection hu with hu; rw [← hu]; rfl
      · obtain ⟨t, ht, rfl⟩ := Option.map_eq_some'.mp hu
        have := (seek_track_frame dd t ht).2.2.2.2.2.1
        simp [or_reg, inc_cur_sector, read_sector, dd_controller.setReg, this]
      · injection hu with hu; rw [← hu]; rfl
      · injection hu with hu; rw [← hu]; rfl
      · injection hu with hu; rw [← hu]; rfl
      · injection hu with hu; rw [← hu]; rfl
      · injection hu with hu; rw [← hu]

/-- On a disk that is not in the LBA-addressed format, `dd_update_bm` returns. -/
theorem dd_update_bm_some (dd : dd_controller)
    (hf : dd.disk.format ≠ DiskFormat.DISK_FORMAT_SDK) : ∃ s, dd_update_bm dd = some s := by
  obtain ⟨t, ht⟩ := seek_track_some dd hf
  unfold dd_update_bm dd_update_bm_write dd_update_bm_read
  simp only [ht, Option.map_some']
  split_ifs <;> exact ⟨_, rfl⟩

/-- One step of a read transfer outside the track-6 case, at sector index
`c ≤ 89` with the continue flag clear. -/
theorem read_step (dd s : dd_controller) (h : dd_update_bm dd = some s)
    (hrun : dd.regs Reg.DD_ASIC_BM_STATUS_CTL &&& DD_BM_STATUS_RUNNING ≠ 0)
    (hw : dd.bm_write = 0)
    (htk : dd.regs Reg.DD_ASIC_CUR_TK &&& 0x1fff ≠ 6)
    (hb : dd.regs Reg.DD_ASIC_BM_STATUS_CTL &&& DD_BM_STATUS_BLOCK = 0)
    (hc : dd.regs Reg.DD_ASIC_CUR_SECTOR ≤ 89) :
    s.regs Reg.DD_ASIC_CUR_SECTOR =
      (if dd.regs Reg.DD_ASIC_CUR_SECTOR < 89 then dd.regs Reg.DD_ASIC_CUR_SECTOR + 1
        else 89) ∧
    (s.regs Reg.DD_ASIC_BM_STATUS_CTL &&& DD_BM_STATUS_RUNNING ≠ 0 ↔
      dd.regs Reg.DD_ASIC_CUR_SECTOR < 89) ∧
    s.regs Reg.DD_ASIC_BM_STATUS_CTL &&& DD_BM_STATUS_BLOCK = 0 ∧
    s.regs Reg.DD_ASIC_CUR_TK = dd.regs Reg.DD_ASIC_CUR_TK ∧
    s.bm_write = 0 ∧
    s.regs Reg.DD_ASIC_CMD_STATUS =
      dd.regs Reg.DD_ASIC_CMD_STATUS |||
        read_step_bits (dd.regs Reg.DD_ASIC_CUR_SECTOR + 1) ||| DD_STATUS_BM_INT := by
  have hq : ¬ ((dd.regs Reg.DD_ASIC_CUR_TK &&& 0x1fff) = 6 ∧ dd.bm_block = 0 ∧
      u8 dd.disk.development = 0) := fun h => htk h.1
  have hw2 : ¬ dd.bm_write ≠ 0 := by rw [hw]; decide
  unfold dd_update_bm dd_update_bm_read at h
  simp only [] at h
  rw [if_neg hrun, if_neg hw2, if_neg hq] at h
  by_cases h1 : dd.regs Reg.DD_ASIC_CUR_SECTOR < SECTORS_PER_BLOCK
  · rw [if_pos h1, Option.map_map] at h
    obtain ⟨t, ht, rfl⟩ := Option.map_eq_some'.mp h
    obtain ⟨f1, f2, f3, f4, f5, f6, f7, f8, f9, f10⟩ := seek_track_frame dd t ht
    have hbm := seek_track_run_bits dd t ht
    have hsec := f1 Reg.DD_ASIC_CUR_SECTOR (by decide)
    have hcmd := f1 Reg.DD_ASIC_CMD_STATUS (by decide)
    have htk2 := f1 Reg.DD_ASIC_CUR_TK (by decide)
    unfold SECTORS_PER_BLOCK at h1
    have e1 : dd.regs Reg.DD_ASIC_CUR_SECTOR < 89 := by omega
    have e2 : dd.regs Reg.DD_ASIC_CUR_SECTOR + 1 ≤ 85 := by omega
    have e3 : ¬ dd.regs Reg.DD_ASIC_CUR_SECTOR + 1 = 89 := by omega
    have e4 : (dd.regs Reg.DD_ASIC_CUR_SECTOR + 1) % 4294967296 =
        dd.regs Reg.DD_ASIC_CUR_SECTOR + 1 := by omega
    simp [signal_dd_interrupt, r4300_check_interrupt, or_reg, inc_cur_sector, read_sector,
      dd_controller.setReg, hsec, hcmd, htk2, f3, hbm, u32, read_step_bits, e1, e2, e3, e4, hw,
      hb]
    exact hrun
  · rw [if_neg h1] at h
    by_cases h2 : dd.regs Reg.DD_ASIC_CUR_SECTOR < SECTORS_PER_BLOCK + 4
    · rw [if_pos h2] at h
      unfold SECTORS_PER_BLOCK at h1 h2
      have e1 : dd.regs Reg.DD_ASIC_CUR_SECTOR < 89 := by omega
      have e2 : ¬ dd.regs Reg.DD_ASIC_CUR_SECTOR + 1 ≤ 85 := by omega
      have e4 : (dd.regs Reg.DD_ASIC_CUR_SECTOR + 1) % 4294967296 =
          dd.regs Reg.DD_ASIC_CUR_SECTOR + 1 := by omega
      by_cases e3 : dd.regs Reg.DD_ASIC_CUR_SECTOR + 1 = 89
      · have hc2 : (inc_cur_sector (read_C2 dd)).regs Reg.DD_ASIC_CUR_SECTOR =
            SECTORS_PER_BLOCK + 4 := by
          simp [inc_cur_sector, read_C2, dd_controller.setReg, u32, e4, e3, SECTORS_PER_BLOCK]
        rw [if_pos hc2] at h
        obtain ⟨u, hu, rfl⟩ := Option.map_eq_some'.mp h
        injection hu with hu
        subst hu
        simp [signal_dd_interrupt, r4300_check_interrupt, or_reg, inc_cur_sector, read_C2,
          dd_controller.setReg, u32, read_step_bits, e1, e2, e3, e4, hw, hb]
        exact hrun
      · have hc2 : ¬ (inc_cur_sector (read_C2 dd)).regs Reg.DD_ASIC_CUR_SECTOR =
            SECTORS_PER_BLOCK + 4 := by
          simp [inc_cur_sector, read_C2, dd_controller.setReg, u32, e4, e3, SECTORS_PER_BLOCK]
        rw [if_neg hc2] at h
        obtain ⟨u, hu, rfl⟩ := Option.map_eq_some'.mp h
        injection hu with hu
        subst hu
        simp [signal_dd_interrupt, r4300_check_interrupt, or_reg, inc_cur_sector, read_C2,
          dd_controller.setReg, u32, read_step_bits, e1, e2, e3, e4, hw, hb]
        exact hrun
    · have h3 : dd.regs Reg.DD_ASIC_CUR_SECTOR = SECTORS_PER_BLOCK + 4 := by
        unfold SECTORS_PER_BLOCK at h1 h2 ⊢; omega
      rw [if_neg h2, if_pos h3, if_neg (by rw [hb]; decide)] at h
      obtain ⟨u, hu, rfl⟩ := Option.map_eq_some'.mp h
      injection hu with hu
      subst hu
      unfold SECTORS_PER_BLOCK at h3
      simp [signal_dd_interrupt, r4300_check_interrupt, clear_reg, dd_controller.setReg,
        read_step_bits, h3, hw]
      exact ⟨and_clear_self _ _ _ (by decide),
        by rw [and_clear_of_disjoint _ _ _ (by decide)]; exact hb⟩

theorem Neutral_id : Neutral id := by
  intro s
  exact ⟨rfl, rfl, rfl, rfl, rfl⟩

theorem dd_update_bm_run_with_succ (g : dd_controller → dd_controller) (k : Nat)
    (dd : dd_controller) :
    dd_update_bm_run_with g (k + 1) dd =
      (dd_update_bm_run_with g k dd).bind (fun s => dd_update_bm (g s)) := rfl

/-- The state of a read transfer started at sector 0 outside the track-6 case,
after `k ≤ 90` steps, where `g` is applied before every step. -/
theorem read_run (g : dd_controller → dd_controller) (hg : Neutral g) (dd : dd_controller)
    (hrun : dd.regs Reg.DD_ASIC_BM_STATUS_CTL &&& DD_BM_STATUS_RUNNING ≠ 0)
    (hw : dd.bm_write = 0)
    (h0 : dd.regs Reg.DD_ASIC_CUR_SECTOR = 0)
    (hb : dd.regs Reg.DD_ASIC_BM_STATUS_CTL &&& DD_BM_STATUS_BLOCK = 0)
    (htk : dd.regs Reg.DD_ASIC_CUR_TK &&& 0x1fff ≠ 6)
    (hf : dd.disk.format ≠ DiskFormat.DISK_FORMAT_SDK) :
    ∀ k, k ≤ 90 →
      ∃ s, dd_update_bm_run_with g k dd = some s ∧
        s.regs Reg.DD_ASIC_CUR_SECTOR = (if k < 89 then k else 89) ∧
        (s.regs Reg.DD_ASIC_BM_STATUS_CTL &&& DD_BM_STATUS_RUNNING ≠ 0 ↔ k < 90) ∧
        s.regs Reg.DD_ASIC_BM_STATUS_CTL &&& DD_BM_STATUS_BLOCK = 0 ∧
        s.regs Reg.DD_ASIC_CUR_TK = dd.regs Reg.DD_ASIC_CUR_TK ∧
        s.bm_write = 0 ∧
        s.disk.format = dd.disk.format ∧
        (1 ≤ k → ∃ p, dd_update_bm_run_with g (k - 1) dd = some p ∧
          s.regs Reg.DD_ASIC_CMD_STATUS =
            (g p).regs Reg.DD_ASIC_CMD_STATUS ||| read_step_bits k ||| DD_STATUS_BM_INT) := by
  intro k
  induction k with
  | zero =>
    intro _
    refine ⟨dd, rfl, by rw [h0]; rfl, ?_, hb, rfl, hw, rfl, ?_⟩
    · constructor
      · intro _; omega
      · intro _; exact hrun
    · intro h; omega
  | succ k ih =>
    intro hk
    obtain ⟨p, hp, i1, i2, i3, i4, i5, i6, _⟩ := ih (by omega)
    obtain ⟨g1, g2, g3, g4, g5⟩ := hg p
    obtain ⟨s, hs⟩ := dd_update_bm_some (g p) (by rw [g5, i6]; exact hf)
    have hc : (g p).regs Reg.DD_ASIC_CUR_SECTOR = k := by
      rw [g2, i1]; split_ifs <;> omega
    obtain ⟨a1, a2, a3, a4, a5, a6⟩ := read_step (g p) s hs
      (by rw [g1]; exact i2.mpr (by omega)) (by rw [g4]; exact i5)
      (by rw [g3, i4]; exact htk) (by rw [g1]; exact i3) (by rw [hc]; omega)
    rw [hc] at a1 a2 a6
    refine ⟨s, ?_, ?_, ?_, a3, by rw [a4, g3, i4], a5,
      by rw [dd_update_bm_format (g p) s hs, g5, i6], ?_⟩
    · rw [dd_update_bm_run_with_succ, hp]
      exact hs
    · rw [a1]; split_ifs <;> omega
    · rw [a2]; omega
    · intro _
      rw [Nat.add_sub_cancel]
      exact ⟨p, hp, a6⟩

/-- C3 (as amended): on a disk that is not in the LBA-addressed (SDK) format, a
read transfer started at sector 0 with the continue flag clear, outside the
track-6 case, ends after 90 sequencer steps with the running flag clear and the
sector index at 89 (the gap step does not advance it). Every one of the 90
invocations returns. -/
theorem read_sequence_final (dd : dd_controller)
    (hrun : dd.regs Reg.DD_ASIC_BM_STATUS_CTL &&& DD_BM_STATUS_RUNNING ≠ 0)
    (hw : dd.bm_write = 0)
    (h0 : dd.regs Reg.DD_ASIC_CUR_SECTOR = 0)
    (hb : dd.regs Reg.DD_ASIC_BM_STATUS_CTL &&& DD_BM_STATUS_BLOCK = 0)
    (htk : dd.regs Reg.DD_ASIC_CUR_TK &&& 0x1fff ≠ 6)
    (hf : dd.disk.format ≠ DiskFormat.DISK_FORMAT_SDK) :
    ∃ s, dd_update_bm_run 90 dd = some s ∧
      s.regs Reg.DD_ASIC_CUR_SECTOR = 89 ∧
      s.regs Reg.DD_ASIC_BM_STATUS_CTL &&& DD_BM_STATUS_RUNNING = 0 := by
  obtain ⟨s, hs, a1, a2, _⟩ := read_run id Neutral_id dd hrun hw h0 hb htk hf 90 (by omega)
  refine ⟨s, hs, by rw [a1]; rfl, ?_⟩
  by_contra h
  have := a2.mp h
  omega

theorem read_sequence_final_witness :
    sample_state.regs Reg.DD_ASIC_CUR_TK &&& 0x1fff ≠ 6 ∧
    sample_state.disk.format ≠ DiskFormat.DISK_FORMAT_SDK ∧
    ∃ s, dd_update_bm_run 90 sample_state = some s ∧
      s.regs Reg.DD_ASIC_CUR_SECTOR = 89 ∧
      s.regs Reg.DD_ASIC_BM_STATUS_CTL &&& DD_BM_STATUS_RUNNING = 0 :=
  ⟨by decide, by decide,
    read_sequence_final sample_state (by decide) rfl rfl (by decide) (by decide) (by decide)⟩

/-- C3 as stated fails: on the sample state, which meets every precondition of
the claim, the 90 steps return a state whose sector index is 89, not 90. -/
theorem read_sequence_final_counterexample :
    sample_state.regs Reg.DD_ASIC_BM_STATUS_CTL &&& DD_BM_STATUS_RUNNING ≠ 0 ∧
    sample_state.bm_write = 0 ∧
    sample_state.regs Reg.DD_ASIC_CUR_SECTOR = 0 ∧
    sample_state.regs Reg.DD_ASIC_BM_STATUS_CTL &&& DD_BM_STATUS_BLOCK = 0 ∧
    sample_state.regs Reg.DD_ASIC_CUR_TK &&& 0x1fff ≠ 6 ∧
    ∃ s, dd_update_bm_run 90 sample_state = some s ∧
      ¬ (s.regs Reg.DD_ASIC_CUR_SECTOR = 90 ∧
        s.regs Reg.DD_ASIC_BM_STATUS_CTL &&& DD_BM_STATUS_RUNNING = 0) := by
  refine ⟨by decide, rfl, rfl, by decide, by decide, ?_⟩
  obtain ⟨s, hs, a1, _⟩ := read_run id Neutral_id sample_state (by decide) rfl rfl (by decide)
    (by decide) (by decide) 90 (by omega)
  refine ⟨s, hs, ?_⟩
  intro h
  rw [a1] at h
  exact absurd h.1 (by decide)

/-- C5: in read direction with the track register (low 13 bits) at 6, block 0
and a non-development disk attached, one sequencer step returns and leaves the
data-request bit clear and the micro-error flag set; the sector index, the
block, the running flag and the sector buffer are unchanged and no sector helper
is called (no seek, no read). -/
theorem track6_quirk (dd : dd_controller)
    (hrun : dd.regs Reg.DD_ASIC_BM_STATUS_CTL &&& DD_BM_STATUS_RUNNING ≠ 0)
    (hw : dd.bm_write = 0)
    (htk : dd.regs Reg.DD_ASIC_CUR_TK &&& 0x1FFF = 6)
    (hblk : dd.bm_block = 0)
    (_hdisk : dd.idisk = true) (hdev : dd.disk.development = 0) :
    ∃ s, dd_update_bm dd = some s ∧
      s.regs Reg.DD_ASIC_CMD_STATUS &&& DD_STATUS_DATA_RQ = 0 ∧
      s.regs Reg.DD_ASIC_BM_STATUS_CTL &&& DD_BM_STATUS_MICRO ≠ 0 ∧
      s.regs Reg.DD_ASIC_CUR_SECTOR = dd.regs Reg.DD_ASIC_CUR_SECTOR ∧
      s.bm_block = dd.bm_block ∧
      s.regs Reg.DD_ASIC_BM_STATUS_CTL &&& DD_BM_STATUS_RUNNING =
        dd.regs Reg.DD_ASIC_BM_STATUS_CTL &&& DD_BM_STATUS_RUNNING ∧
      s.ds_buf = dd.ds_buf ∧
      s.calls = dd.calls ∧
      s.disk = dd.disk := by
  have hq : (dd.regs Reg.DD_ASIC_CUR_TK &&& 0x1fff) = 6 ∧ dd.bm_block = 0 ∧
      u8 dd.disk.development = 0 := ⟨htk, hblk, by rw [hdev]; rfl⟩
  have hw2 : ¬ dd.bm_write ≠ 0 := by rw [hw]; decide
  have hres : dd_update_bm dd = some (signal_dd_interrupt
      (or_reg (clear_reg dd Reg.DD_ASIC_CMD_STATUS DD_STATUS_DATA_RQ)
        Reg.DD_ASIC_BM_STATUS_CTL DD_BM_STATUS_MICRO) DD_STATUS_BM_INT) := by
    unfold dd_update_bm dd_update_bm_read
    simp only []
    rw [if_neg hrun, if_neg hw2, if_pos hq]
    rfl
  refine ⟨_, hres, ?_⟩
  simp [signal_dd_interrupt, r4300_check_interrupt, or_reg, clear_reg, dd_controller.setReg]
  refine ⟨?_, ?_, ?_⟩
  · rw [and_or_of_disjoint _ _ _ (by decide)]
    exact and_clear_self _ _ _ (by decide)
  · rw [and_or_self]; decide
  · exact and_or_of_disjoint _ _ _ (by decide)

theorem track6_quirk_witness :
    track6_state.regs Reg.DD_ASIC_CUR_TK &&& 0x1FFF = 6 ∧
    track6_state.regs Reg.DD_ASIC_CMD_STATUS &&& DD_STATUS_DATA_RQ ≠ 0 ∧
    ∃ s, dd_update_bm track6_state = some s ∧
      s.regs Reg.DD_ASIC_CMD_STATUS &&& DD_STATUS_DATA_RQ = 0 ∧
      s.regs Reg.DD_ASIC_BM_STATUS_CTL &&& DD_BM_STATUS_MICRO ≠ 0 ∧
      s.regs Reg.DD_ASIC_CUR_SECTOR = track6_state.regs Reg.DD_ASIC_CUR_SECTOR ∧
      s.bm_block = track6_state.bm_block ∧
      s.regs Reg.DD_ASIC_BM_STATUS_CTL &&& DD_BM_STATUS_RUNNING =
        track6_state.regs Reg.DD_ASIC_BM_STATUS_CTL &&& DD_BM_STATUS_RUNNING ∧
      s.ds_buf = track6_state.ds_buf ∧
      s.calls = track6_state.calls ∧
      s.disk = track6_state.disk :=
  ⟨by decide, by decide, track6_quirk track6_state (by decide) rfl (by decide) rfl rfl rfl⟩

theorem write_sector_frame (dd : dd_controller) :
    (write_sector dd).regs = dd.regs ∧ (write_sector dd).bm_write = dd.bm_write ∧
    (write_sector dd).bm_block = dd.bm_block ∧
    (write_sector dd).bm_reset_held = dd.bm_reset_held := ⟨rfl, rfl, rfl, rfl⟩

/-- C10: a write of any value to the command/status register returns and ends
with the mechanical-interrupt bit set in that register and the interrupt line
raised. -/
theorem command_write_raises_mecha (m : Mmio) (now : Int) (lt : Int → tm)
    (dd : dd_controller) (a value : Nat)
    (hwin : m.MM_DD_REGS ≤ a ∧ a < m.MM_DD_MS_RAM)
    (hreg : m.dd_reg a = Reg.DD_ASIC_CMD_STATUS) :
    ∃ s, write_dd_regs m now lt dd a value = some s ∧
      s.regs Reg.DD_ASIC_CMD_STATUS &&& DD_STATUS_MECHA_INT = DD_STATUS_MECHA_INT ∧
      s.regs Reg.DD_ASIC_CMD_STATUS &&& DD_STATUS_MECHA_INT ≠ 0 ∧
      s.ip3 = true := by
  have hw : ¬ (a < m.MM_DD_REGS ∨ a ≥ m.MM_DD_MS_RAM) := by omega
  have e : write_dd_regs m now lt dd a value = some (write_dd_cmd now lt dd value) := by
    unfold write_dd_regs
    rw [if_neg hw]
    simp only [hreg]
  refine ⟨_, e, ?_⟩
  have hs : ∀ s : dd_controller,
      (signal_dd_interrupt s DD_STATUS_MECHA_INT).regs Reg.DD_ASIC_CMD_STATUS &&&
        DD_STATUS_MECHA_INT = DD_STATUS_MECHA_INT ∧
      (signal_dd_interrupt s DD_STATUS_MECHA_INT).ip3 = true := by
    intro s
    simp [signal_dd_interrupt, r4300_check_interrupt, dd_controller.setReg, and_or_self]
  unfold write_dd_cmd
  simp only []
  refine ⟨(hs _).1, ?_, (hs _).2⟩
  rw [(hs _).1]
  decide

theorem command_write_raises_mecha_witness :
    sample_mmio.dd_reg 0x05000508 = Reg.DD_ASIC_CMD_STATUS ∧
    ∃ s, write_dd_regs sample_mmio 0 sample_localtime sample_state 0x05000508 0x00120000 =
        some s ∧
      s.regs Reg.DD_ASIC_CMD_STATUS &&& DD_STATUS_MECHA_INT = DD_STATUS_MECHA_INT ∧
      s.regs Reg.DD_ASIC_CMD_STATUS &&& DD_STATUS_MECHA_INT ≠ 0 ∧
      s.ip3 = true :=
  ⟨by decide,
    command_write_raises_mecha sample_mmio 0 sample_localtime sample_state 0x05000508
      0x00120000 (by decide) (by decide)⟩

/-- C7 fails on the code. A run that starts at an addressable LBA and crosses
`MAX_LBA` has at least two blocks, and for every count `nlbas ≥ 1` `LBAToByteA`
faults in its first iteration, at the call `LBAToVZone(type, lba)` of line 838,
before it reaches the test that returns the sentinel. For disk type 3,
`lba = 0x10D0`, `nlbas = 20` the claim requires `0xFFFFFFFF`; the code returns
nothing, as for every other run the claim speaks of. -/
theorem LBAToByteA_overflow_faults :
    (0x10D0 : Nat) ≤ MAX_LBA ∧ 0x10D0 + 20 - 1 > MAX_LBA ∧
    LBAToByteA 3 0x10D0 20 = none ∧
    (∀ type lba nlbas, lba ≤ MAX_LBA → lba + nlbas - 1 > MAX_LBA →
      LBAToByteA type lba nlbas = none) := by
  refine ⟨by decide, by decide, LBAToByteA_succ 3 0x10D0 19, ?_⟩
  intro type lba nlbas h1 h2
  obtain ⟨n, rfl⟩ : ∃ n, nlbas = n + 1 := ⟨nlbas - 1, by omega⟩
  exact LBAToByteA_succ type lba n

/-- C8 fails on the code. The one-block run at the last addressable LBA
(`lba = MAX_LBA`, `nlbas = 1`, disk type 0) ends exactly at `MAX_LBA`, and the
byte total the claim requires is `85 * 192 = 16320`; `LBAToByteA` returns
nothing, because it faults at the call `LBAToVZone(type, lba)` of line 838, as
it does for every run with `nlbas ≥ 1`. -/
theorem LBAToByteA_last_block_faults :
    MAX_LBA + 1 - 1 ≤ MAX_LBA ∧
    LBAToByte_naive 0 MAX_LBA 1 = 16320 ∧
    LBAToByteA 0 MAX_LBA 1 = none ∧
    (∀ type lba nlbas, 1 ≤ nlbas → lba + nlbas - 1 ≤ MAX_LBA →
      LBAToByteA type lba nlbas = none) := by
  refine ⟨by decide, by decide, LBAToByteA_succ 0 MAX_LBA 0, ?_⟩
  intro type lba nlbas h1 _
  obtain ⟨n, rfl⟩ : ∃ n, nlbas = n + 1 := ⟨nlbas - 1, by omega⟩
  exact LBAToByteA_succ type lba n

theorem byte2bcd_nat (n : Nat) :
    byte2bcd (n : Int) = (((n % 100) / 10) <<< 4 ||| (n % 100) % 10) % 256 := by
  unfold byte2bcd
  simp only []
  have e1 : Int.tmod (n : Int) 100 = ((n % 100 : Nat) : Int) := (Int.ofNat_tmod n 100).symm
  rw [e1]
  have e2 : Int.tdiv ((n % 100 : Nat) : Int) 10 = (((n % 100) / 10 : Nat) : Int) :=
    (Int.ofNat_tdiv (n % 100) 10).symm
  have e3 : Int.tmod ((n % 100 : Nat) : Int) 10 = (((n % 100) % 10 : Nat) : Int) :=
    (Int.ofNat_tmod (n % 100) 10).symm
  rw [e2, e3]
  have e4 : ((((n % 100) / 10 : Nat) : Int)) <<< (4 : Int) =
      ((((n % 100) / 10) <<< 4 : Nat) : Int) := Int.shiftLeft_coe_nat _ 4
  rw [e4]
  have e5 : Int.lor ((((n % 100) / 10) <<< 4 : Nat) : Int) ((((n % 100) % 10 : Nat)) : Int) =
      (((((n % 100) / 10) <<< 4) ||| ((n % 100) % 10) : Nat) : Int) := rfl
  rw [e5]
  omega

theorem bcd_digits : ∀ k, k < 100 →
    ((k / 10) <<< 4 ||| k % 10) % 256 = 16 * (k / 10) + k % 10 ∧
    10 * ((16 * (k / 10) + k % 10) >>> 4) + ((16 * (k / 10) + k % 10) &&& 0xF) = k := by
  decide

/-- C9: `byte2bcd` packs decimal digits. For every `n ≥ 0`,
`byte2bcd(n) = 16 * ((n mod 100) / 10) + (n mod 10)`; for `0 ≤ n ≤ 99` (every
such `n` is `n mod 100`) the high nibble is the tens digit and the low nibble
the ones digit, so `10 * (r >> 4) + (r & 0xF)` recovers `n`; and
`byte2bcd(0) = 0x00`, `byte2bcd(59) = 0x59`, `byte2bcd(99) = 0x99`,
`byte2bcd(100) = 0x00`. -/
theorem byte2bcd_packs_digits :
    (∀ n : Nat, byte2bcd (n : Int) = 16 * ((n % 100) / 10) + n % 10) ∧
    (∀ n : Nat, 10 * (byte2bcd ((n % 100 : Nat) : Int) >>> 4) +
      (byte2bcd ((n % 100 : Nat) : Int) &&& 0xF) = n % 100) ∧
    byte2bcd 0 = 0x00 ∧ byte2bcd 59 = 0x59 ∧ byte2bcd 99 = 0x99 ∧ byte2bcd 100 = 0x00 := by
  have main : ∀ n : Nat, byte2bcd (n : Int) = 16 * ((n % 100) / 10) + n % 10 := by
    intro n
    rw [byte2bcd_nat, (bcd_digits (n % 100) (Nat.mod_lt _ (by decide))).1]
    omega
  refine ⟨main, ?_, ?_, ?_, ?_, ?_⟩
  · intro n
    rw [main]
    have h := (bcd_digits (n % 100) (Nat.mod_lt _ (by decide))).2
    have e : n % 100 % 100 = n % 100 := Nat.mod_mod _ _
    have e2 : n % 100 % 10 = n % 10 := by omega
    rw [e, e2]
    rw [e2] at h
    exact h
  · exact main 0
  · exact main 59
  · exact main 99
  · exact main 100

/-- C11: with the running flag clear, `dd_update_bm` returns the state it was
given: every register, `bm_write`, `bm_block`, `bm_zone`, `bm_track_offset`,
both scratch buffers, the disk image and the interrupt line are unchanged,
whatever the direction and the sector index. -/
theorem dd_update_bm_not_running (dd : dd_controller)
    (h : dd.regs Reg.DD_ASIC_BM_STATUS_CTL &&& DD_BM_STATUS_RUNNING = 0) :
    dd_update_bm dd = some dd := by
  unfold dd_update_bm
  rw [if_pos h]

theorem dd_update_bm_not_running_witness :
    track6_state.regs Reg.DD_ASIC_BM_STATUS_CTL &&& DD_BM_STATUS_RUNNING ≠ 0 ∧
    (track6_state.setReg Reg.DD_ASIC_BM_STATUS_CTL DD_BM_STATUS_BLOCK).regs
      Reg.DD_ASIC_BM_STATUS_CTL &&& DD_BM_STATUS_RUNNING = 0 ∧
    dd_update_bm (track6_state.setReg Reg.DD_ASIC_BM_STATUS_CTL DD_BM_STATUS_BLOCK) =
      some (track6_state.setReg Reg.DD_ASIC_BM_STATUS_CTL DD_BM_STATUS_BLOCK) :=
  ⟨by decide, by decide,
    dd_update_bm_not_running (track6_state.setReg Reg.DD_ASIC_BM_STATUS_CTL DD_BM_STATUS_BLOCK)
      (by decide)⟩

theorem read_dd_regs_other (m : Mmio) (dd : dd_controller) (a : Nat)
    (hwin : m.MM_DD_REGS ≤ a ∧ a < m.MM_DD_MS_RAM)
    (hreg : m.dd_reg a ≠ Reg.DD_ASIC_CMD_STATUS) :
    read_dd_regs m dd a = some (dd, dd.regs (m.dd_reg a)) := by
  have hw : ¬ (a < m.MM_DD_REGS ∨ a ≥ m.MM_DD_MS_RAM) := by omega
  unfold read_dd_regs
  simp only []
  rw [if_neg hw, if_neg hreg, if_neg hreg]
  rfl

theorem read_dd_regs_status (m : Mmio) (dd : dd_controller) (a : Nat)
    (hwin : m.MM_DD_REGS ≤ a ∧ a < m.MM_DD_MS_RAM)
    (hreg : m.dd_reg a = Reg.DD_ASIC_CMD_STATUS) :
    read_dd_regs m dd a =
      (if (refresh_disk_pres dd).regs Reg.DD_ASIC_CMD_STATUS &&& DD_STATUS_BM_INT ≠ 0 ∧
          (refresh_disk_pres dd).regs Reg.DD_ASIC_CUR_SECTOR > SECTORS_PER_BLOCK then
        dd_update_bm (clear_dd_interrupt (refresh_disk_pres dd) DD_STATUS_BM_INT)
      else some (refresh_disk_pres dd)).map
        (fun s => (s, (refresh_disk_pres dd).regs Reg.DD_ASIC_CMD_STATUS)) := by
  have hw : ¬ (a < m.MM_DD_REGS ∨ a ≥ m.MM_DD_MS_RAM) := by omega
  unfold read_dd_regs refresh_disk_pres
  simp only []
  rw [if_neg hw]
  simp only [hreg, if_true]

theorem refresh_disk_pres_frame (dd : dd_controller) :
    (refresh_disk_pres dd).regs Reg.DD_ASIC_CMD_STATUS =
      (if dd.idisk then dd.regs Reg.DD_ASIC_CMD_STATUS ||| DD_STATUS_DISK_PRES
        else dd.regs Reg.DD_ASIC_CMD_STATUS &&& not32 DD_STATUS_DISK_PRES) ∧
    (∀ r, r ≠ Reg.DD_ASIC_CMD_STATUS → (refresh_disk_pres dd).regs r = dd.regs r) ∧
    (refresh_disk_pres dd).regs Reg.DD_ASIC_CMD_STATUS &&& DD_STATUS_BM_INT =
      dd.regs Reg.DD_ASIC_CMD_STATUS &&& DD_STATUS_BM_INT ∧
    (refresh_disk_pres dd).regs Reg.DD_ASIC_CMD_STATUS &&& DD_STATUS_DISK_PRES =
      (if dd.idisk then DD_STATUS_DISK_PRES else 0) ∧
    (refresh_disk_pres dd).calls = dd.calls := by
  unfold refresh_disk_pres
  by_cases hd : dd.idisk = true
  · simp only [hd, if_true, or_reg, dd_controller.setReg]
    refine ⟨trivial, ?_, and_or_of_disjoint _ _ _ (by decide), and_or_self _ _, trivial⟩
    intro r hr
    rw [if_neg hr]
  · simp only [Bool.not_eq_true] at hd
    simp only [hd, Bool.false_eq_true, if_false, clear_reg, dd_controller.setReg, if_true]
    refine ⟨trivial, ?_, and_clear_of_disjoint _ _ _ (by decide),
      and_clear_self _ _ _ (by decide), trivial⟩
    intro r hr
    rw [if_neg hr]

/-- Above sector index 85 no branch of the sequencer seeks, so `dd_update_bm`
returns, whatever the disk format. -/
theorem dd_update_bm_some_above (dd : dd_controller)
    (h : dd.regs Reg.DD_ASIC_CUR_SECTOR > SECTORS_PER_BLOCK) :
    ∃ s, dd_update_bm dd = some s := by
  have e0 : ¬ dd.regs Reg.DD_ASIC_CUR_SECTOR = 0 := by
    unfold SECTORS_PER_BLOCK at h; omega
  have e1 : ¬ dd.regs Reg.DD_ASIC_CUR_SECTOR < SECTORS_PER_BLOCK := by omega
  have e2 : ¬ dd.regs Reg.DD_ASIC_CUR_SECTOR < SECTORS_PER_BLOCK + 1 := by omega
  unfold dd_update_bm dd_update_bm_write dd_update_bm_read
  simp only [if_neg e0, if_neg e1, if_neg e2]
  split_ifs <;> exact ⟨_, rfl⟩

/-- The sequencer never changes the disk-present bit of the command/status
register. -/
theorem dd_update_bm_disk_pres (dd s : dd_controller) (h : dd_update_bm dd = some s) :
    s.regs Reg.DD_ASIC_CMD_STATUS &&& DD_STATUS_DISK_PRES =
      dd.regs Reg.DD_ASIC_CMD_STATUS &&& DD_STATUS_DISK_PRES := by
  have h1 : ∀ x : Nat, (x ||| DD_STATUS_DATA_RQ) &&& DD_STATUS_DISK_PRES =
      x &&& DD_STATUS_DISK_PRES := fun x => and_or_of_disjoint _ _ _ (by decide)
  have h2 : ∀ x : Nat, (x ||| DD_STATUS_BM_INT) &&& DD_STATUS_DISK_PRES =
      x &&& DD_STATUS_DISK_PRES := fun x => and_or_of_disjoint _ _ _ (by decide)
  have h3 : ∀ x : Nat, (x ||| DD_STATUS_C2_XFER) &&& DD_STATUS_DISK_PRES =
      x &&& DD_STATUS_DISK_PRES := fun x => and_or_of_disjoint _ _ _ (by decide)
  have h4 : ∀ x : Nat, (x &&& not32 DD_STATUS_DATA_RQ) &&& DD_STATUS_DISK_PRES =
      x &&& DD_STATUS_DISK_PRES := fun x => and_clear_of_disjoint _ _ _ (by decide)
  unfold dd_update_bm at h
  split at h
  · injection h with h
    rw [← h]
  · obtain ⟨u, hu, rfl⟩ := Option.map_eq_some'.mp h
    have hsig : (signal_dd_interrupt u DD_STATUS_BM_INT).regs Reg.DD_ASIC_CMD_STATUS &&&
        DD_STATUS_DISK_PRES = u.regs Reg.DD_ASIC_CMD_STATUS &&& DD_STATUS_DISK_PRES := by
      simp [signal_dd_interrupt, r4300_check_interrupt, dd_controller.setReg, h2]
    rw [hsig]
    split at hu
    · unfold dd_update_bm_write at hu
      split_ifs at hu
      · injection hu with hu; rw [← hu]
        simp [or_reg, inc_cur_sector, dd_controller.setReg, h1]
      · obtain ⟨t, ht, rfl⟩ := Option.map_eq_some'.mp hu
        have f := (seek_track_frame dd t ht).1 Reg.DD_ASIC_CMD_STATUS (by decide)
        simp [or_reg, inc_cur_sector, write_sector, dd_controller.setReg, f, h1]
      · obtain ⟨t, ht, rfl⟩ := Option.map_eq_some'.mp hu
        have f := (seek_track_frame dd t ht).1 Reg.DD_ASIC_CMD_STATUS (by decide)
        simp [next_block_write, or_reg, clear_reg, write_sector, dd_controller.setReg, f, h1]
      · obtain ⟨t, ht, rfl⟩ := Option.map_eq_some'.mp hu
        have f := (seek_track_frame dd t ht).1 Reg.DD_ASIC_CMD_STATUS (by decide)
        simp [clear_reg, inc_cur_sector, write_sector, dd_controller.setReg, f]
      · injection hu with hu; rw [← hu]
    · unfold dd_update_bm_read at hu
      simp only [] at hu
      split_ifs at hu
      · injection hu with hu; rw [← hu]
        simp [or_reg, clear_reg, dd_controller.setReg, h4]
      · obtain ⟨t, ht, rfl⟩ := Option.map_eq_some'.mp hu
        have f := (seek_track_frame dd t ht).1 Reg.DD_ASIC_CMD_STATUS (by decide)
        simp [or_reg, inc_cur_sector, read_sector, dd_controller.setReg, f, h1]
      · injection hu with hu; rw [← hu]
        simp [or_reg, inc_cur_sector, read_C2, dd_controller.setReg, h3]
      · injection hu with hu; rw [← hu]
        simp [inc_cur_sector, read_C2, dd_controller.setReg]
      · injection hu with hu; rw [← hu]
        simp [clear_reg, dd_controller.setReg]
      · injection hu with hu; rw [← hu]
        simp [clear_reg, dd_controller.setReg]
      · injection hu with hu; rw [← hu]

/-- C13: the value returned by a register read. For an in-window address that
decodes to a register other than command/status, the read returns the stored
value and the state is unchanged. For the command/status register the read
returns, and the returned value is the stored value with the disk-present bit
set when a disk is attached and cleared otherwise, whether or not the same read
goes on to clear the block-transfer interrupt and step the sequencer; the
disk-present bit of the value stored after the read is refreshed in the same
way. -/
theorem read_dd_regs_value (m : Mmio) (dd : dd_controller) (a : Nat)
    (hwin : m.MM_DD_REGS ≤ a ∧ a < m.MM_DD_MS_RAM) :
    (m.dd_reg a ≠ Reg.DD_ASIC_CMD_STATUS →
      read_dd_regs m dd a = some (dd, dd.regs (m.dd_reg a))) ∧
    (m.dd_reg a = Reg.DD_ASIC_CMD_STATUS →
      ∃ s, read_dd_regs m dd a =
          some (s, if dd.idisk then dd.regs Reg.DD_ASIC_CMD_STATUS ||| DD_STATUS_DISK_PRES
            else dd.regs Reg.DD_ASIC_CMD_STATUS &&& not32 DD_STATUS_DISK_PRES) ∧
        s.regs Reg.DD_ASIC_CMD_STATUS &&& DD_STATUS_DISK_PRES =
          (if dd.idisk then DD_STATUS_DISK_PRES else 0)) := by
  refine ⟨read_dd_regs_other m dd a hwin, ?_⟩
  intro hreg
  obtain ⟨r1, r2, _, r4, _⟩ := refresh_disk_pres_frame dd
  rw [read_dd_regs_status m dd a hwin hreg, ← r1]
  by_cases hc : (refresh_disk_pres dd).regs Reg.DD_ASIC_CMD_STATUS &&& DD_STATUS_BM_INT ≠ 0 ∧
      (refresh_disk_pres dd).regs Reg.DD_ASIC_CUR_SECTOR > SECTORS_PER_BLOCK
  · rw [if_pos hc]
    obtain ⟨s, hs⟩ := dd_update_bm_some_above
      (clear_dd_interrupt (refresh_disk_pres dd) DD_STATUS_BM_INT) hc.2
    refine ⟨s, by rw [hs]; rfl, ?_⟩
    rw [dd_update_bm_disk_pres _ s hs, ← r4]
    simp only [clear_dd_interrupt, r4300_check_interrupt, dd_controller.setReg, if_true]
    exact and_clear_of_disjoint _ _ _ (by decide)
  · rw [if_neg hc]
    exact ⟨_, rfl, r4⟩

theorem read_dd_regs_value_witness :
    sample_mmio.MM_DD_REGS ≤ 0x05000508 ∧ 0x05000508 < sample_mmio.MM_DD_MS_RAM ∧
    sample_mmio.dd_reg 0x05000508 = Reg.DD_ASIC_CMD_STATUS ∧
    ∃ s, read_dd_regs sample_mmio sample_state 0x05000508 =
        some (s, if sample_state.idisk then
          sample_state.regs Reg.DD_ASIC_CMD_STATUS ||| DD_STATUS_DISK_PRES
        else sample_state.regs Reg.DD_ASIC_CMD_STATUS &&& not32 DD_STATUS_DISK_PRES) ∧
      s.regs Reg.DD_ASIC_CMD_STATUS &&& DD_STATUS_DISK_PRES =
        (if sample_state.idisk then DD_STATUS_DISK_PRES else 0) :=
  ⟨by decide, by decide, by decide,
    (read_dd_regs_value sample_mmio sample_state 0x05000508 (by decide)).2 (by decide)⟩

/-- C14 (as amended): a read of the command/status register with the
block-transfer interrupt bit set and the sector index above 85 (86 or more)
clears the bit, lowers the line and then runs exactly one `dd_update_bm` step,
which returns; when the bit is clear or the sector index is at most 85, the read
runs no step and leaves the bit, the sector index and the record of helper calls
as they were. -/
theorem status_read_resume (m : Mmio) (dd : dd_controller) (a : Nat)
    (hwin : m.MM_DD_REGS ≤ a ∧ a < m.MM_DD_MS_RAM)
    (hreg : m.dd_reg a = Reg.DD_ASIC_CMD_STATUS) :
    (dd.regs Reg.DD_ASIC_CMD_STATUS &&& DD_STATUS_BM_INT ≠ 0 ∧
        dd.regs Reg.DD_ASIC_CUR_SECTOR > 85 →
      ∃ s, (read_dd_regs m dd a).map Prod.fst = some s ∧
        dd_update_bm (clear_dd_interrupt (refresh_disk_pres dd) DD_STATUS_BM_INT) = some s ∧
        (clear_dd_interrupt (refresh_disk_pres dd) DD_STATUS_BM_INT).regs
          Reg.DD_ASIC_CMD_STATUS &&& DD_STATUS_BM_INT = 0 ∧
        (clear_dd_interrupt (refresh_disk_pres dd) DD_STATUS_BM_INT).ip3 = false) ∧
    (dd.regs Reg.DD_ASIC_CMD_STATUS &&& DD_STATUS_BM_INT = 0 ∨
        dd.regs Reg.DD_ASIC_CUR_SECTOR ≤ 85 →
      ∃ s, (read_dd_regs m dd a).map Prod.fst = some s ∧
        s = refresh_disk_pres dd ∧
        s.regs Reg.DD_ASIC_CMD_STATUS &&& DD_STATUS_BM_INT =
          dd.regs Reg.DD_ASIC_CMD_STATUS &&& DD_STATUS_BM_INT ∧
        s.regs Reg.DD_ASIC_CUR_SECTOR = dd.regs Reg.DD_ASIC_CUR_SECTOR ∧
        s.calls = dd.calls) := by
  obtain ⟨_, r2, r3, _, r5⟩ := refresh_disk_pres_frame dd
  have hsec := r2 Reg.DD_ASIC_CUR_SECTOR (by decide)
  rw [read_dd_regs_status m dd a hwin hreg, Option.map_map]
  have hid : (Prod.fst ∘ fun s : dd_controller =>
      (s, (refresh_disk_pres dd).regs Reg.DD_ASIC_CMD_STATUS)) = id := rfl
  rw [hid, Option.map_id, r3, hsec]
  unfold SECTORS_PER_BLOCK
  constructor
  · intro h
    rw [if_pos h]
    obtain ⟨s, hs⟩ := dd_update_bm_some_above
      (clear_dd_interrupt (refresh_disk_pres dd) DD_STATUS_BM_INT)
      (by
        have e : (clear_dd_interrupt (refresh_disk_pres dd) DD_STATUS_BM_INT).regs
            Reg.DD_ASIC_CUR_SECTOR = dd.regs Reg.DD_ASIC_CUR_SECTOR := by
          simp [clear_dd_interrupt, r4300_check_interrupt, dd_controller.setReg, hsec]
        rw [e]; unfold SECTORS_PER_BLOCK; exact h.2)
    refine ⟨s, hs, hs, ?_, rfl⟩
    simp only [clear_dd_interrupt, r4300_check_interrupt, dd_controller.setReg, if_true]
    exact and_clear_self _ _ _ (by decide)
  · intro h
    have hn : ¬ (dd.regs Reg.DD_ASIC_CMD_STATUS &&& DD_STATUS_BM_INT ≠ 0 ∧
        dd.regs Reg.DD_ASIC_CUR_SECTOR > 85) := by
      rintro ⟨h1, h2⟩
      rcases h with h | h
      · exact h1 h
      · omega
    rw [if_neg hn]
    exact ⟨_, rfl, rfl, r3, hsec, r5⟩

theorem status_read_resume_witness :
    (sector85_state.setReg Reg.DD_ASIC_CUR_SECTOR 86).regs Reg.DD_ASIC_CMD_STATUS &&&
      DD_STATUS_BM_INT ≠ 0 ∧
    (sector85_state.setReg Reg.DD_ASIC_CUR_SECTOR 86).regs Reg.DD_ASIC_CUR_SECTOR > 85 ∧
    ∃ s, (read_dd_regs sample_mmio (sector85_state.setReg Reg.DD_ASIC_CUR_SECTOR 86)
        0x05000508).map Prod.fst = some s ∧
      dd_update_bm (clear_dd_interrupt
        (refresh_disk_pres (sector85_state.setReg Reg.DD_ASIC_CUR_SECTOR 86))
        DD_STATUS_BM_INT) = some s :=
  ⟨by decide, by decide,
    ((status_read_resume sample_mmio (sector85_state.setReg Reg.DD_ASIC_CUR_SECTOR 86)
      0x05000508 (by decide) (by decide)).1 ⟨by decide, by decide⟩).elim
        (fun s hs => ⟨s, hs.1, hs.2.1⟩)⟩

/-- C14 as stated fails at sector index 85: in `sector85_state` the
block-transfer interrupt bit is set and `CUR_SECTOR = 85`, yet a read of the
command/status register runs no sequencer step (a step would move the sector
index to 86 and record a `read_C2` call) and leaves the interrupt bit set. -/
theorem status_read_resume_counterexample :
    sector85_state.regs Reg.DD_ASIC_CMD_STATUS &&& DD_STATUS_BM_INT ≠ 0 ∧
    sector85_state.regs Reg.DD_ASIC_CUR_SECTOR ≥ 85 ∧
    sample_mmio.dd_reg 0x05000508 = Reg.DD_ASIC_CMD_STATUS ∧
    (read_dd_regs sample_mmio sector85_state 0x05000508).map
      (fun p => p.1.regs Reg.DD_ASIC_CUR_SECTOR) = some 85 ∧
    (read_dd_regs sample_mmio sector85_state 0x05000508).map (fun p => p.1.calls) = some [] ∧
    (read_dd_regs sample_mmio sector85_state 0x05000508).map
      (fun p => p.1.regs Reg.DD_ASIC_CMD_STATUS &&& DD_STATUS_BM_INT) =
        some DD_STATUS_BM_INT ∧
    (dd_update_bm (clear_dd_interrupt (refresh_disk_pres sector85_state)
      DD_STATUS_BM_INT)).map (fun s => s.regs Reg.DD_ASIC_CUR_SECTOR) = some 86 ∧
    (read_dd_regs sample_mmio sector85_state 0x05000508).map Prod.fst ≠
      dd_update_bm (clear_dd_interrupt (refresh_disk_pres sector85_state)
        DD_STATUS_BM_INT) := by
  have h1 : (read_dd_regs sample_mmio sector85_state 0x05000508).map
      (fun p => p.1.regs Reg.DD_ASIC_CUR_SECTOR) = some 85 := by decide
  have h2 : (dd_update_bm (clear_dd_interrupt (refresh_disk_pres sector85_state)
      DD_STATUS_BM_INT)).map (fun s => s.regs Reg.DD_ASIC_CUR_SECTOR) = some 86 := by decide
  refine ⟨by decide, by decide, by decide, h1, by decide, by decide, h2, ?_⟩
  intro h
  have h3 : ((read_dd_regs sample_mmio sector85_state 0x05000508).map Prod.fst).map
      (fun s => s.regs Reg.DD_ASIC_CUR_SECTOR) = some 85 := by
    rw [Option.map_map]
    exact h1
  rw [h, h2] at h3
  exact absurd h3 (by decide)

theorem clear_twice (dd : dd_controller) (m1 m2 : Nat) :
    clear_dd_interrupt (clear_reg dd Reg.DD_ASIC_CMD_STATUS m1) m2 =
      { dd with
        regs := fun r =>
          if r = Reg.DD_ASIC_CMD_STATUS then
            (dd.regs Reg.DD_ASIC_CMD_STATUS &&& not32 m1) &&& not32 m2
          else dd.regs r
        ip3 := false } := by
  simp only [clear_dd_interrupt, clear_reg, r4300_check_interrupt, dd_controller.setReg,
    if_true]
  congr 1
  funext r
  by_cases h : r = Reg.DD_ASIC_CMD_STATUS
  · rw [if_pos h, if_pos h]
  · rw [if_neg h, if_neg h, if_neg h]

/-- C15: the buffer-addressed notification. With the C2S buffer address it
clears exactly the C2-transfer, BM-error and BM-interrupt bits of the
command/status register, with the DS buffer address exactly the data-request,
BM-error and BM-interrupt bits; in both cases the interrupt line is lowered and
nothing else in the state changes. With any other address the state is
unchanged. (The two buffer addresses are distinct constants of the address
map.) -/
theorem cart_addr_notification (m : Mmio) (dd : dd_controller)
    (hne : m.MM_DD_C2S_BUFFER ≠ m.MM_DD_DS_BUFFER) :
    dd_on_pi_cart_addr_write m dd m.MM_DD_C2S_BUFFER =
      { dd with
        regs := fun r =>
          if r = Reg.DD_ASIC_CMD_STATUS then
            dd.regs Reg.DD_ASIC_CMD_STATUS &&&
              not32 (DD_STATUS_C2_XFER ||| DD_STATUS_BM_ERR ||| DD_STATUS_BM_INT)
          else dd.regs r
        ip3 := false } ∧
    dd_on_pi_cart_addr_write m dd m.MM_DD_DS_BUFFER =
      { dd with
        regs := fun r =>
          if r = Reg.DD_ASIC_CMD_STATUS then
            dd.regs Reg.DD_ASIC_CMD_STATUS &&&
              not32 (DD_STATUS_DATA_RQ ||| DD_STATUS_BM_ERR ||| DD_STATUS_BM_INT)
          else dd.regs r
        ip3 := false } ∧
    (∀ a, a ≠ m.MM_DD_C2S_BUFFER → a ≠ m.MM_DD_DS_BUFFER →
      dd_on_pi_cart_addr_write m dd a = dd) := by
  refine ⟨?_, ?_, ?_⟩
  · unfold dd_on_pi_cart_addr_write
    rw [if_pos rfl, clear_twice, Nat.and_assoc]
    have e : not32 (DD_STATUS_C2_XFER ||| DD_STATUS_BM_ERR) &&& not32 DD_STATUS_BM_INT =
        not32 (DD_STATUS_C2_XFER ||| DD_STATUS_BM_ERR ||| DD_STATUS_BM_INT) := by decide
    rw [e]
  · unfold dd_on_pi_cart_addr_write
    rw [if_neg (Ne.symm hne), if_pos rfl, clear_twice, Nat.and_assoc]
    have e : not32 (DD_STATUS_DATA_RQ ||| DD_STATUS_BM_ERR) &&& not32 DD_STATUS_BM_INT =
        not32 (DD_STATUS_DATA_RQ ||| DD_STATUS_BM_ERR ||| DD_STATUS_BM_INT) := by decide
    rw [e]
  · intro a h1 h2
    unfold dd_on_pi_cart_addr_write
    rw [if_neg h1, if_neg h2]

theorem cart_addr_notification_witness :
    sample_mmio.MM_DD_C2S_BUFFER ≠ sample_mmio.MM_DD_DS_BUFFER ∧
    dd_on_pi_cart_addr_write sample_mmio sector85_state 0x05000400 =
      { sector85_state with
        regs := fun r =>
          if r = Reg.DD_ASIC_CMD_STATUS then
            sector85_state.regs Reg.DD_ASIC_CMD_STATUS &&&
              not32 (DD_STATUS_DATA_RQ ||| DD_STATUS_BM_ERR ||| DD_STATUS_BM_INT)
          else sector85_state.regs r
        ip3 := false } :=
  ⟨by decide, (cart_addr_notification sample_mmio sector85_state (by decide)).2.1⟩

theorem PhysToLBA_loop_spec (table : Nat → Nat) (key : Nat) :
    ∀ n k,
      (PhysToLBA_loop table key n k = 0xFFFF ∧
        ∀ j, k ≤ j → j < k + n → table j ≠ key) ∨
      (k ≤ PhysToLBA_loop table key n k ∧ PhysToLBA_loop table key n k < k + n ∧
        table (PhysToLBA_loop table key n k) = key ∧
        ∀ j, k ≤ j → j < PhysToLBA_loop table key n k → table j ≠ key) := by
  intro n
  induction n with
  | zero =>
    intro k
    left
    refine ⟨rfl, ?_⟩
    intro j h1 h2
    omega
  | succ n ih =>
    intro k
    unfold PhysToLBA_loop
    by_cases hk : table k = key
    · right
      rw [if_pos hk]
      refine ⟨le_refl _, by omega, hk, ?_⟩
      intro j h1 h2
      omega
    · rw [if_neg hk]
      have hstep : ∀ j, k ≤ j → j ≠ k → k + 1 ≤ j := by intro j h1 h2; omega
      rcases ih (k + 1) with ⟨h1, h2⟩ | ⟨h1, h2, h3, h4⟩
      · left
        refine ⟨h1, ?_⟩
        intro j hj1 hj2
        by_cases hjk : j = k
        · subst hjk; exact hk
        · exact h2 j (hstep j hj1 hjk) (by omega)
      · right
        refine ⟨by omega, by omega, h3, ?_⟩
        intro j hj1 hj2
        by_cases hjk : j = k
        · subst hjk; exact hk
        · exact h4 j (hstep j hj1 hjk) hj2

/-- C16: `PhysToLBA` is an exact-match linear search. With `key` the
`uint16_t` value of `track | head*0x1000 | block*0x2000`, either no entry of
the table in `[0, MAX_LBA]` equals `key` and the result is the sentinel
`0xFFFF`, or the result is the least index in `[0, MAX_LBA]` whose entry equals
`key`; so the least matching index is returned whenever one exists, and the
sentinel is returned if and only if none does. (The function only reads the
table: in the embedding it is a function of the table and the coordinates.) -/
theorem PhysToLBA_linear_search (table : Nat → Nat) (head track block : Nat) :
    ((PhysToLBA table head track block = 0xFFFF ∧
        ∀ l, l ≤ MAX_LBA → table l ≠ u16 (track ||| head * 0x1000 ||| block * 0x2000)) ∨
      (PhysToLBA table head track block ≤ MAX_LBA ∧
        table (PhysToLBA table head track block) =
          u16 (track ||| head * 0x1000 ||| block * 0x2000) ∧
        ∀ j, j < PhysToLBA table head track block →
          table j ≠ u16 (track ||| head * 0x1000 ||| block * 0x2000))) ∧
    (∀ l, l ≤ MAX_LBA → table l = u16 (track ||| head * 0x1000 ||| block * 0x2000) →
      (∀ j, j < l → table j ≠ u16 (track ||| head * 0x1000 ||| block * 0x2000)) →
      PhysToLBA table head track block = l) ∧
    (PhysToLBA table head track block = 0xFFFF ↔
      ∀ l, l ≤ MAX_LBA → table l ≠ u16 (track ||| head * 0x1000 ||| block * 0x2000)) := by
  have hsize : SIZE_LBA = 0x10DC := rfl
  have hmax : MAX_LBA = 0x10DB := rfl
  have hdef : PhysToLBA table head track block =
      PhysToLBA_loop table (u16 (track ||| head * 0x1000 ||| block * 0x2000)) SIZE_LBA 0 := rfl
  generalize u16 (track ||| head * 0x1000 ||| block * 0x2000) = key at *
  have hspec := PhysToLBA_loop_spec table key SIZE_LBA 0
  rw [← hdef] at hspec
  generalize PhysToLBA table head track block = r at *
  rw [hsize] at hspec
  rw [hmax]
  refine ⟨?_, ?_, ?_⟩
  · rcases hspec with ⟨h1, h2⟩ | ⟨_, h2, h3, h4⟩
    · left
      exact ⟨h1, fun l hl => h2 l (Nat.zero_le _) (by omega)⟩
    · right
      exact ⟨by omega, h3, fun j hj => h4 j (Nat.zero_le _) hj⟩
  · intro l hl hkey hmin
    rcases hspec with ⟨_, h2⟩ | ⟨_, h2, h3, h4⟩
    · exact absurd hkey (h2 l (Nat.zero_le _) (by omega))
    · rcases Nat.lt_trichotomy r l with h | h | h
      · exact absurd h3 (hmin r h)
      · exact h
      · exact absurd hkey (h4 l (Nat.zero_le _) h)
  · constructor
    · intro hr l hl
      rcases hspec with ⟨_, h2⟩ | ⟨_, h2, _, _⟩
      · exact h2 l (Nat.zero_le _) (by omega)
      · omega
    · intro hnone
      rcases hspec with ⟨h1, _⟩ | ⟨_, h2, h3, _⟩
      · exact h1
      · exact absurd h3 (hnone r (by omega))

theorem VZoneLBATable_le : ∀ t, t < 7 → ∀ v, v < 16 → rd2 VZoneLBATable t v ≤ 0x10DC := by
  decide

theorem type_nibble : ∀ t, t < 7 → t &&& 0x0F = t := by decide

/-- C17: for a disk type `t` in `0..6`, `LBAToVZoneA` returns for every
`lba ≤ MAX_LBA` a zone `v` in `0..15` with `lba < VZoneLBATable[t][v]` and
(`v = 0` or `VZoneLBATable[t][v-1] ≤ lba`), the first zone whose boundary
exceeds the LBA; for every `lba > MAX_LBA` it returns `0xFFFFFFFF`. -/
theorem LBAToVZoneA_first_zone (t : Nat) (ht : t ≤ 6) :
    (∀ lba, lba ≤ MAX_LBA →
      LBAToVZoneA t lba ≤ 15 ∧
      lba < rd2 VZoneLBATable t (LBAToVZoneA t lba) ∧
      (LBAToVZoneA t lba = 0 ∨ rd2 VZoneLBATable t (LBAToVZoneA t lba - 1) ≤ lba) ∧
      ∀ j, j < LBAToVZoneA t lba → rd2 VZoneLBATable t j ≤ lba) ∧
    (∀ lba, lba > MAX_LBA → LBAToVZoneA t lba = 0xFFFFFFFF) := by
  have hn := type_nibble t (by omega)
  constructor
  · intro lba hl
    have hlast := VZoneLBATable_last t (by omega)
    have hspec := LBAToVZoneA_loop_spec t lba 16 0 rfl
    rw [hn] at hspec
    have hdef : LBAToVZoneA t lba = LBAToVZoneA_loop t lba 16 0 := rfl
    rw [← hdef] at hspec
    unfold MAX_LBA at hl
    rcases hspec with ⟨_, h2⟩ | ⟨_, h2, h3, h4⟩
    · have := h2 15 (by omega) (by omega)
      omega
    · refine ⟨by omega, h3, ?_, fun j hj => h4 j (Nat.zero_le _) hj⟩
      by_cases hv : LBAToVZoneA t lba = 0
      · left; exact hv
      · right; exact h4 _ (Nat.zero_le _) (by omega)
  · intro lba hl
    have hspec := LBAToVZoneA_loop_spec t lba 16 0 rfl
    rw [hn] at hspec
    have hdef : LBAToVZoneA t lba = LBAToVZoneA_loop t lba 16 0 := rfl
    rw [← hdef] at hspec
    unfold MAX_LBA at hl
    rcases hspec with ⟨h1, _⟩ | ⟨_, h2, h3, _⟩
    · exact h1
    · have := VZoneLBATable_le t (by omega) _ h2
      omega

theorem LBAToVZoneA_first_zone_witness :
    (3 : Nat) ≤ 6 ∧ (0x0500 : Nat) ≤ MAX_LBA ∧
    LBAToVZoneA 3 0x0500 ≤ 15 ∧
    0x0500 < rd2 VZoneLBATable 3 (LBAToVZoneA 3 0x0500) ∧
    LBAToVZoneA 3 0x10DC = 0xFFFFFFFF :=
  have h := LBAToVZoneA_first_zone 3 (by decide)
  ⟨by decide, by decide, (h.1 0x0500 (by decide)).1, (h.1 0x0500 (by decide)).2.1,
    h.2 0x10DC (by decide)⟩

theorem signal_dd_interrupt_frame (dd : dd_controller) (b : Nat) :
    (signal_dd_interrupt dd b).regs Reg.DD_ASIC_CUR_TK = dd.regs Reg.DD_ASIC_CUR_TK ∧
    (signal_dd_interrupt dd b).regs Reg.DD_ASIC_DATA = dd.regs Reg.DD_ASIC_DATA ∧
    (signal_dd_interrupt dd b).bm_write = dd.bm_write := by
  simp [signal_dd_interrupt, r4300_check_interrupt, dd_controller.setReg]

/-- C18: seek command latching. A write to the command/status register returns.
When its opcode (bits 16..23 of the value) is `0x01` or `0x02`, afterwards
`CUR_TK = (DATA >> 16) | 0x60000000` and `bm_write` is 0 for opcode `0x01`
(seek-read) and 1 for opcode `0x02` (seek-write); for every other opcode
`CUR_TK` and `bm_write` are unchanged. -/
theorem seek_command_latch (m : Mmio) (now : Int) (lt : Int → tm) (dd : dd_controller)
    (a value : Nat)
    (hwin : m.MM_DD_REGS ≤ a ∧ a < m.MM_DD_MS_RAM)
    (hreg : m.dd_reg a = Reg.DD_ASIC_CMD_STATUS) :
    ∃ s, write_dd_regs m now lt dd a value = some s ∧
      ((value >>> 16) &&& 0xff = 0x01 →
        s.regs Reg.DD_ASIC_CUR_TK = (dd.regs Reg.DD_ASIC_DATA >>> 16) ||| 0x60000000 ∧
        s.bm_write = 0) ∧
      ((value >>> 16) &&& 0xff = 0x02 →
        s.regs Reg.DD_ASIC_CUR_TK = (dd.regs Reg.DD_ASIC_DATA >>> 16) ||| 0x60000000 ∧
        s.bm_write = 1) ∧
      ((value >>> 16) &&& 0xff ≠ 0x01 → (value >>> 16) &&& 0xff ≠ 0x02 →
        s.regs Reg.DD_ASIC_CUR_TK = dd.regs Reg.DD_ASIC_CUR_TK ∧
        s.bm_write = dd.bm_write) := by
  have hw : ¬ (a < m.MM_DD_REGS ∨ a ≥ m.MM_DD_MS_RAM) := by omega
  have e : write_dd_regs m now lt dd a value = some (write_dd_cmd now lt dd value) := by
    unfold write_dd_regs
    rw [if_neg hw]
    simp only [hreg]
  refine ⟨_, e, ?_⟩
  have hop : (value >>> 16) &&& 0xff = value / 65536 % 256 := by
    have h1 : (value >>> 16) &&& 0xff = (value >>> 16) % 256 :=
      Nat.and_pow_two_sub_one_eq_mod (value >>> 16) 8
    rw [h1, Nat.shiftRight_eq_div_pow]
  have hdir : (value >>> 17) &&& 0x1 = value / 131072 % 2 := by
    rw [Nat.and_one_is_mod, Nat.shiftRight_eq_div_pow]
  unfold write_dd_cmd
  simp only []
  rw [(signal_dd_interrupt_frame _ _).1, (signal_dd_interrupt_frame _ _).2.2]
  refine ⟨?_, ?_, ?_⟩
  · intro h1
    have hb : (value >>> 17) &&& 0x1 = 0 := by rw [hdir]; rw [hop] at h1; omega
    have h0 : ¬ (value >>> 16) &&& 0xff = 0x00 := by rw [h1]; decide
    rw [if_neg h0, if_pos (Or.inl h1), hb]
    simp [or_reg, dd_controller.setReg, update_rtc, DD_TRACK_LOCK]
  · intro h2
    have hb : (value >>> 17) &&& 0x1 = 1 := by rw [hdir]; rw [hop] at h2; omega
    have h0 : ¬ (value >>> 16) &&& 0xff = 0x00 := by rw [h2]; decide
    rw [if_neg h0, if_pos (Or.inr h2), hb]
    simp [or_reg, dd_controller.setReg, update_rtc, DD_TRACK_LOCK]
  · intro h1 h2
    have hn : ¬ ((value >>> 16) &&& 0xff = 0x01 ∨ (value >>> 16) &&& 0xff = 0x02) := by
      rintro (h | h)
      · exact h1 h
      · exact h2 h
    split_ifs <;> simp [clear_reg, dd_controller.setReg, update_rtc]

theorem seek_command_latch_witness :
    sample_mmio.dd_reg 0x05000508 = Reg.DD_ASIC_CMD_STATUS ∧
    ((0x00020001 : Nat) >>> 16) &&& 0xff = 0x02 ∧
    ∃ s, write_dd_regs sample_mmio 0 sample_localtime
        (sample_state.setReg Reg.DD_ASIC_DATA 0x00070000) 0x05000508 0x00020001 = some s ∧
      s.regs Reg.DD_ASIC_CUR_TK =
        ((sample_state.setReg Reg.DD_ASIC_DATA 0x00070000).regs Reg.DD_ASIC_DATA >>> 16) |||
          0x60000000 ∧
      s.bm_write = 1 :=
  ⟨by decide, by decide,
    (seek_command_latch sample_mmio 0 sample_localtime
      (sample_state.setReg Reg.DD_ASIC_DATA 0x00070000) 0x05000508 0x00020001
      (by decide) (by decide)).elim (fun s hs => ⟨s, hs.1, hs.2.2.1 (by decide)⟩)⟩

/-- C19 fails on the code in the flat format, write direction. In
`mame_write_state` the seek resolves data sector 0 (`CUR_SECTOR - bm_write = 0`)
to image offset 0, block `b = 0 < 12`, while the disk records its system data
in block 1; the claim requires the micro flag, but `seek_track` returns with
the BM status/control register unchanged, because the flat-format branch tests
`CUR_SECTOR == 0`. The LBA-addressed branch, which tests the resolved sector,
sets the flag on the same state (whose coordinate resolves to LBA 0), and so
does the flat-format branch in read direction at sector index 0. -/
theorem seek_track_mame_write_skips_check :
    mame_write_state.disk.format = DiskFormat.DISK_FORMAT_MAME ∧
    sub32 (mame_write_state.regs Reg.DD_ASIC_CUR_SECTOR) mame_write_state.bm_write = 0 ∧
    (seek_track mame_write_state).map (fun s => s.bm_track_offset / 0x4D08) = some 0 ∧
    mame_write_state.disk.offset_sys / 0x4D08 = 1 ∧
    (seek_track mame_write_state).map (fun s => s.regs Reg.DD_ASIC_BM_STATUS_CTL) =
      some (mame_write_state.regs Reg.DD_ASIC_BM_STATUS_CTL) ∧
    (seek_track mame_write_state).map
      (fun s => s.regs Reg.DD_ASIC_BM_STATUS_CTL &&& DD_BM_STATUS_MICRO) = some 0 ∧
    DD_BM_STATUS_MICRO ≠ 0 ∧
    (seek_track { mame_write_state with
      disk := { mame_write_state.disk with format := DiskFormat.DISK_FORMAT_SDK } }).map
        (fun s => s.regs Reg.DD_ASIC_BM_STATUS_CTL &&& DD_BM_STATUS_MICRO) =
      some DD_BM_STATUS_MICRO ∧
    (seek_track { (mame_write_state.setReg Reg.DD_ASIC_CUR_SECTOR 0) with
      bm_write := 0 }).map
        (fun s => s.regs Reg.DD_ASIC_BM_STATUS_CTL &&& DD_BM_STATUS_MICRO) =
      some DD_BM_STATUS_MICRO := by
  refine ⟨rfl, by decide, by decide, by decide, by decide, by decide, by decide, by decide,
    by decide⟩

/-- C20 fails on the code. `LBAToByteA(t, lba, 0)` returns 0, as the claim
says; but for every count `nlbas ≥ 1` the loop faults in its first iteration,
at the call `LBAToVZone(type, lba)` of line 838, and returns nothing. For disk
type 2, `lba = 0x0240`, `nlbas = 30` (a run inside the addressable range) the
naive per-block sum the claim requires is 535840. -/
theorem LBAToByteA_naive_faults :
    (2 : Nat) ≤ 6 ∧ 1 ≤ 30 ∧ 0x0240 + 30 ≤ MAX_LBA ∧
    LBAToByte_naive 2 0x0240 30 = 535840 ∧
    LBAToByteA 2 0x0240 30 = none ∧
    (∀ t lba nlbas, 1 ≤ nlbas → LBAToByteA t lba nlbas = none) ∧
    (∀ t lba, LBAToByteA t lba 0 = some 0) := by
  refine ⟨by decide, by decide, by decide, by decide, LBAToByteA_succ 2 0x0240 29, ?_,
    LBAToByteA_zero⟩
  intro t lba nlbas h1
  obtain ⟨n, rfl⟩ : ∃ n, nlbas = n + 1 := ⟨nlbas - 1, by omega⟩
  exact LBAToByteA_succ t lba n

theorem VZoneToPZone_range : ∀ t, t < 7 → ∀ v, v < 16 → VZoneToPZone v t < 16 := by decide

theorem VZoneToPZone_surj :
    ∀ t, t < 7 → ∀ p, p < 16 → ∃ v, v < 16 ∧ VZoneToPZone v t = p := by decide

/-- C22: for every disk type `t` in `0..6` the row `VZONE_PZONE_TBL[t]` is a
permutation of `0..15`: every entry is a physical zone in `0..15`, and every
physical zone in `0..15` is the image of exactly one virtual zone. -/
theorem VZONE_PZONE_TBL_permutation (t : Nat) (ht : t ≤ 6) :
    (∀ v, v < 16 → rd2 VZONE_PZONE_TBL t v < 16) ∧
    (∀ p, p < 16 → ∃ v, v < 16 ∧ rd2 VZONE_PZONE_TBL t v = p ∧
      ∀ w, w < 16 → rd2 VZONE_PZONE_TBL t w = p → w = v) := by
  have ht7 : t < 7 := by omega
  refine ⟨fun v hv => VZoneToPZone_range t ht7 v hv, ?_⟩
  intro p hp
  obtain ⟨v, hv, hvp⟩ := VZoneToPZone_surj t ht7 p hp
  refine ⟨v, hv, hvp, ?_⟩
  intro w hw hwp
  exact VZoneToPZone_inj t ht7 w hw v hv (by unfold VZoneToPZone; rw [hwp]; exact hvp.symm)

theorem VZONE_PZONE_TBL_permutation_witness :
    (4 : Nat) ≤ 6 ∧ (∀ v, v < 16 → rd2 VZONE_PZONE_TBL 4 v < 16) ∧
    (∀ p, p < 16 → ∃ v, v < 16 ∧ rd2 VZONE_PZONE_TBL 4 v = p ∧
      ∀ w, w < 16 → rd2 VZONE_PZONE_TBL 4 w = p → w = v) :=
  ⟨by decide, VZONE_PZONE_TBL_permutation 4 (by decide)⟩

/-- C23: the two sector-size tables agree: for every physical zone `p` in
`0..15`, `zone_sec_size[p] = zone_sec_size_phys[p > 7 ? p - 7 : p]`, the
reduction `LBAToByteA` applies. -/
theorem zone_sec_size_tables_agree (p : Nat) (hp : p ≤ 15) :
    rd zone_sec_size p = rd zone_sec_size_phys (if 7 < p then p - 7 else p) := by
  have h : ∀ q, q < 16 →
      rd zone_sec_size q = rd zone_sec_size_phys (if 7 < q then q - 7 else q) := by decide
  exact h p (by omega)

theorem zone_sec_size_tables_agree_witness :
    (9 : Nat) ≤ 15 ∧ rd zone_sec_size 9 = rd zone_sec_size_phys (if 7 < 9 then 9 - 7 else 9) :=
  ⟨by decide, zone_sec_size_tables_agree 9 (by decide)⟩

/-- C24: the flat-format zones are contiguous. `start_offset[0] = 0` and for
every zone `z` in `0..14`,
`start_offset[z+1] = start_offset[z] + zone_sec_size[z] * 85 * 2 * ZoneTracks[z]`,
the byte size `ZONESIZE(z)` of zone `z`. -/
theorem start_offset_contiguous :
    rd start_offset 0 = 0 ∧
    ∀ z, z < 15 →
      rd start_offset (z + 1) =
        rd start_offset z +
          rd zone_sec_size z * SECTORS_PER_BLOCK * BLOCKS_PER_TRACK * rd ZoneTracks z := by
  decide

/-- C25: the cumulative LBA boundary table is consistent with the track
counts. For every disk type `t` in `0..6` and every virtual zone `v` in
`0..15`, `VZoneLBATable[t][v]` minus the previous boundary (0 for `v = 0`) is
`2 * (ZoneTracks[VZONE_PZONE_TBL[t][v]] - 12)`; every row is strictly
increasing and its last entry is `MAX_LBA + 1 = 0x10DC`. -/
theorem VZoneLBATable_consistent (t : Nat) (ht : t ≤ 6) :
    (∀ v, v < 16 →
      rd2 VZoneLBATable t v - (if v = 0 then 0 else rd2 VZoneLBATable t (v - 1)) =
        2 * (rd ZoneTracks (rd2 VZONE_PZONE_TBL t v) - 12)) ∧
    (∀ v, v < 15 → rd2 VZoneLBATable t v < rd2 VZoneLBATable t (v + 1)) ∧
    rd2 VZoneLBATable t 15 = MAX_LBA + 1 ∧ MAX_LBA + 1 = 0x10DC := by
  have h : ∀ s, s < 7 →
      (∀ v, v < 16 →
        rd2 VZoneLBATable s v - (if v = 0 then 0 else rd2 VZoneLBATable s (v - 1)) =
          2 * (rd ZoneTracks (rd2 VZONE_PZONE_TBL s v) - 12)) ∧
      (∀ v, v < 15 → rd2 VZoneLBATable s v < rd2 VZoneLBATable s (v + 1)) ∧
      rd2 VZoneLBATable s 15 = MAX_LBA + 1 ∧ MAX_LBA + 1 = 0x10DC := by decide
  exact h t (by omega)

theorem VZoneLBATable_consistent_witness :
    (5 : Nat) ≤ 6 ∧
    rd2 VZoneLBATable 5 7 - rd2 VZoneLBATable 5 6 =
      2 * (rd ZoneTracks (rd2 VZONE_PZONE_TBL 5 7) - 12) ∧
    rd2 VZoneLBATable 5 15 = MAX_LBA + 1 :=
  ⟨by decide, (VZoneLBATable_consistent 5 (by decide)).1 7 (by decide),
    (VZoneLBATable_consistent 5 (by decide)).2.2.1⟩

theorem sub32_pred (s : Nat) (hs : 1 ≤ s) : sub32 s 1 = sub32 (s - 1) 0 := by
  unfold sub32
  omega

theorem sdk_write_state_table : sdk_write_state.lba_phys_table = sample_lba_phys_table := by
  simp only [sdk_write_state]

theorem sample_lba_phys_table_eq (i : Nat) (hi : i < SIZE_LBA) :
    sample_lba_phys_table i = LBAToPhys sample_disk i := by
  unfold sample_lba_phys_table GenerateLBAToPhysTable
  rw [if_neg (by decide), GenerateLBAToPhysTable_loop_eq, if_pos ⟨by omega, by omega⟩]

/-- The coordinate of `sdk_write_state` (head 0, track 1, block 0) is LBA 3 of
the sample disk. -/
theorem sdk_write_state_lba : seek_track_lba sdk_write_state = 3 := by
  have htab : ∀ i, i < 4 → sample_lba_phys_table i = LBAToPhys sample_disk i :=
    fun i hi => sample_lba_phys_table_eq i (by unfold SIZE_LBA MAX_LBA; omega)
  have hv : LBAToPhys sample_disk 0 ≠ 1 ∧ LBAToPhys sample_disk 1 ≠ 1 ∧
      LBAToPhys sample_disk 2 ≠ 1 ∧ LBAToPhys sample_disk 3 = 1 := by decide
  have hkey : u16 (u16 (sdk_write_state.regs Reg.DD_ASIC_CUR_TK &&& 0x0fff) |||
      u16 ((sdk_write_state.regs Reg.DD_ASIC_CUR_TK &&& 0x1000) / 0x1000) * 0x1000 |||
      u16 sdk_write_state.bm_block * 0x2000) = 1 := by decide
  unfold seek_track_lba PhysToLBA
  simp only []
  rw [hkey, sdk_write_state_table,
    PhysToLBA_loop_first _ 1 3 (by rw [htab 3 (by omega)]; exact hv.2.2.2) SIZE_LBA 0
      (by omega) (by unfold SIZE_LBA MAX_LBA; omega)]
  · rfl
  · intro j _ hj
    rw [htab j (by omega)]
    have h4 : j = 0 ∨ j = 1 ∨ j = 2 := by omega
    rcases h4 with h | h | h <;> subst h
    · exact hv.1
    · exact hv.2.1
    · exact hv.2.2.1

/-- On a disk in the LBA-addressed format `seek_track` faults whenever the
coordinate resolves to an LBA other than 0. -/
theorem seek_track_sdk_faults (dd : dd_controller)
    (hf : dd.disk.format = DiskFormat.DISK_FORMAT_SDK) (hl : seek_track_lba dd ≠ 0) :
    seek_track dd = none := by
  rw [(seek_track_eq dd).2.1 hf, seek_track_sdk_eq]
  have e : seek_track_lba { dd with calls := dd.calls ++
      [Call.seek_track dd.bm_block (sub32 (dd.regs Reg.DD_ASIC_CUR_SECTOR) dd.bm_write)] } =
      seek_track_lba dd := rfl
  rw [e, if_neg hl]

/-- On the sample SDK disk the sequencer step that stores data sector 0 of
track 1 faults. -/
theorem dd_update_bm_sdk_faults : dd_update_bm sdk_write_state = none := by
  have hs : seek_track sdk_write_state = none :=
    seek_track_sdk_faults sdk_write_state rfl (by rw [sdk_write_state_lba]; decide)
  unfold dd_update_bm dd_update_bm_write
  rw [if_neg (by decide), if_pos (by decide), if_neg (by decide), if_pos (by decide), hs]
  rfl

/-- On a flat-format disk `seek_track` returns, with this zone and this
offset. -/
theorem seek_track_flat (dd : dd_controller)
    (hf : dd.disk.format = DiskFormat.DISK_FORMAT_MAME) :
    ∃ s, seek_track dd = some s ∧
      s.bm_zone =
        u32 (seek_zone_loop (dd.regs Reg.DD_ASIC_CUR_TK &&& 0x0fff) 7 +
          (dd.regs Reg.DD_ASIC_CUR_TK &&& 0x1000) >>> 9) ∧
      s.bm_track_offset =
        u32 (rd start_offset s.bm_zone
          + sub32 (dd.regs Reg.DD_ASIC_CUR_TK &&& 0x0fff)
              (rd tracks (seek_zone_loop (dd.regs Reg.DD_ASIC_CUR_TK &&& 0x0fff) 7)) *
            (rd zone_sec_size s.bm_zone * SECTORS_PER_BLOCK * BLOCKS_PER_TRACK)
          + dd.bm_block * (rd zone_sec_size s.bm_zone * SECTORS_PER_BLOCK)
          + sub32 (dd.regs Reg.DD_ASIC_CUR_SECTOR) dd.bm_write *
              rd zone_sec_size s.bm_zone) := by
  refine ⟨_, (seek_track_eq dd).1 hf, ?_⟩
  have hz : (seek_track_mame { dd with calls := dd.calls ++
      [Call.seek_track dd.bm_block
        (sub32 (dd.regs Reg.DD_ASIC_CUR_SECTOR) dd.bm_write)] }).bm_zone =
      u32 (seek_zone_loop (dd.regs Reg.DD_ASIC_CUR_TK &&& 0x0fff) 7 +
        (dd.regs Reg.DD_ASIC_CUR_TK &&& 0x1000) >>> 9) := by
    unfold seek_track_mame
    simp only []
    rw [(check_system_blocks_frame _ _).2]
  refine ⟨hz, ?_⟩
  rw [hz]
  unfold seek_track_mame
  simp only []
  rw [(check_system_blocks_frame _ _).1]

/-- C26 fails on the code in the LBA-addressed (SDK) format. In the flat
(MAME) format the claim holds: for every state with `CUR_SECTOR = s ≥ 1`,
`seek_track` in write direction (`bm_write = 1`) and `seek_track` in read
direction (`bm_write = 0`) with `CUR_SECTOR = s - 1` both return, with the same
`bm_track_offset` and `bm_zone`. In the SDK format `seek_track` computes an
offset only for a coordinate that resolves to LBA 0; for every other coordinate
it faults in `LBAToByte`, in both directions. In `sdk_write_state` (sample SDK
disk, track 1 of head 0, which is LBA 3, `CUR_SECTOR = 1`) the seek in write
direction and the seek in read direction at `CUR_SECTOR = 0` both return
nothing, where the claim requires two equal offsets. -/
theorem seek_track_previous_sector_sdk_faults :
    (∀ dd : dd_controller, 1 ≤ dd.regs Reg.DD_ASIC_CUR_SECTOR →
      dd.disk.format = DiskFormat.DISK_FORMAT_MAME →
      ∃ w r, seek_track { dd with bm_write := 1 } = some w ∧
        seek_track (({ dd with bm_write := 0 } : dd_controller).setReg Reg.DD_ASIC_CUR_SECTOR
          (dd.regs Reg.DD_ASIC_CUR_SECTOR - 1)) = some r ∧
        w.bm_track_offset = r.bm_track_offset ∧ w.bm_zone = r.bm_zone) ∧
    sdk_write_state.disk.format = DiskFormat.DISK_FORMAT_SDK ∧
    sdk_write_state.regs Reg.DD_ASIC_CUR_SECTOR = 1 ∧
    sdk_write_state.bm_write = 1 ∧
    seek_track_lba sdk_write_state = 3 ∧
    seek_track sdk_write_state = none ∧
    seek_track (({ sdk_write_state with bm_write := 0 } : dd_controller).setReg
      Reg.DD_ASIC_CUR_SECTOR 0) = none ∧
    (∀ dd : dd_controller, dd.disk.format = DiskFormat.DISK_FORMAT_SDK →
      seek_track_lba dd ≠ 0 → seek_track dd = none) := by
  refine ⟨?_, rfl, rfl, rfl, sdk_write_state_lba, ?_, ?_, seek_track_sdk_faults⟩
  · intro dd hs hf
    have e := sub32_pred (dd.regs Reg.DD_ASIC_CUR_SECTOR) hs
    obtain ⟨w, hw, w1, w2⟩ := seek_track_flat { dd with bm_write := 1 } hf
    obtain ⟨r, hr, r1, r2⟩ := seek_track_flat
      (({ dd with bm_write := 0 } : dd_controller).setReg Reg.DD_ASIC_CUR_SECTOR
        (dd.regs Reg.DD_ASIC_CUR_SECTOR - 1)) hf
    have hz : w.bm_zone = r.bm_zone := by
      rw [w1, r1]
      simp [dd_controller.setReg]
    refine ⟨w, r, hw, hr, ?_, hz⟩
    rw [w2, r2, ← hz]
    simp [dd_controller.setReg, e]
  · exact seek_track_sdk_faults sdk_write_state rfl (by rw [sdk_write_state_lba]; decide)
  · apply seek_track_sdk_faults _ rfl
    have h1 : (({ sdk_write_state with bm_write := 0 } : dd_controller).setReg
        Reg.DD_ASIC_CUR_SECTOR 0).regs Reg.DD_ASIC_CUR_TK =
        sdk_write_state.regs Reg.DD_ASIC_CUR_TK := by decide
    have h2 : (({ sdk_write_state with bm_write := 0 } : dd_controller).setReg
        Reg.DD_ASIC_CUR_SECTOR 0).lba_phys_table = sdk_write_state.lba_phys_table := by
      simp only [dd_controller.setReg]
    have h3 : (({ sdk_write_state with bm_write := 0 } : dd_controller).setReg
        Reg.DD_ASIC_CUR_SECTOR 0).bm_block = sdk_write_state.bm_block := by
      simp only [dd_controller.setReg]
    have e : seek_track_lba (({ sdk_write_state with bm_write := 0 } : dd_controller).setReg
        Reg.DD_ASIC_CUR_SECTOR 0) = seek_track_lba sdk_write_state := by
      unfold seek_track_lba
      simp only [h1, h2, h3]
    rw [e, sdk_write_state_lba]
    decide

theorem xor3_xor3 (x : Nat) : (x ^^^ 3) ^^^ 3 = x := by
  rw [Nat.xor_assoc, Nat.xor_self, Nat.xor_zero]

theorem xor3_eq_iff (a i : Nat) : a = i ^^^ 3 ↔ a ^^^ 3 = i := by
  constructor
  · intro h; rw [h, xor3_xor3]
  · intro h; rw [← h, xor3_xor3]

theorem xor3_lt_256 (x : Nat) (h : x < 256) : x ^^^ 3 < 256 :=
  Nat.xor_lt_two_pow (n := 8) h (by decide)

theorem xor3_lt_1024 (x : Nat) (h : x < 1024) : x ^^^ 3 < 1024 :=
  Nat.xor_lt_two_pow (n := 10) h (by decide)

theorem zone_sec_size_le (z : Nat) : rd zone_sec_size z ≤ 232 := by
  by_cases hz : z < 16
  · have h : ∀ q, q < 16 → rd zone_sec_size q ≤ 232 := by decide
    exact h z hz
  · have : rd zone_sec_size z = 0 := by
      unfold rd
      exact List.getD_eq_default _ _ (by simp [zone_sec_size]; omega)
    omega

theorem read_sector_loop_eq (d : Disk) (offset : Nat) :
    ∀ n i buf a,
      read_sector_loop d offset n i buf a =
        if i ≤ a ^^^ 3 ∧ a ^^^ 3 < i + n then d.byte (offset + (a ^^^ 3)) else buf a := by
  intro n
  induction n with
  | zero =>
    intro i buf a
    have : ¬ (i ≤ a ^^^ 3 ∧ a ^^^ 3 < i + 0) := by omega
    rw [if_neg this]
    rfl
  | succ n ih =>
    intro i buf a
    unfold read_sector_loop
    rw [ih]
    by_cases h1 : a ^^^ 3 = i
    · have h2 : ¬ (i + 1 ≤ a ^^^ 3 ∧ a ^^^ 3 < i + 1 + n) := by omega
      have h3 : i ≤ a ^^^ 3 ∧ a ^^^ 3 < i + (n + 1) := by omega
      rw [if_neg h2, if_pos h3, if_pos ((xor3_eq_iff a i).mpr h1), h1]
    · have h4 : ¬ a = i ^^^ 3 := fun h => h1 ((xor3_eq_iff a i).mp h)
      by_cases h2 : i + 1 ≤ a ^^^ 3 ∧ a ^^^ 3 < i + 1 + n
      · have h3 : i ≤ a ^^^ 3 ∧ a ^^^ 3 < i + (n + 1) := by omega
        rw [if_pos h2, if_pos h3]
      · have h3 : ¬ (i ≤ a ^^^ 3 ∧ a ^^^ 3 < i + (n + 1)) := by omega
        rw [if_neg h2, if_neg h3, if_neg h4]

theorem read_C2_loop_eq (offset : Nat) :
    ∀ n i buf a,
      read_C2_loop offset n i buf a =
        if offset + i ≤ a ^^^ 3 ∧ a ^^^ 3 < offset + i + n then 0 else buf a := by
  intro n
  induction n with
  | zero =>
    intro i buf a
    have : ¬ (offset + i ≤ a ^^^ 3 ∧ a ^^^ 3 < offset + i + 0) := by omega
    rw [if_neg this]
    rfl
  | succ n ih =>
    intro i buf a
    unfold read_C2_loop
    rw [ih]
    by_cases h1 : a ^^^ 3 = offset + i
    · have h2 : ¬ (offset + (i + 1) ≤ a ^^^ 3 ∧ a ^^^ 3 < offset + (i + 1) + n) := by omega
      have h3 : offset + i ≤ a ^^^ 3 ∧ a ^^^ 3 < offset + i + (n + 1) := by omega
      rw [if_neg h2, if_pos h3, if_pos ((xor3_eq_iff a (offset + i)).mpr h1)]
    · have h4 : ¬ a = (offset + i) ^^^ 3 := fun h => h1 ((xor3_eq_iff a (offset + i)).mp h)
      by_cases h2 : offset + (i + 1) ≤ a ^^^ 3 ∧ a ^^^ 3 < offset + (i + 1) + n
      · have h3 : offset + i ≤ a ^^^ 3 ∧ a ^^^ 3 < offset + i + (n + 1) := by omega
        rw [if_pos h2, if_pos h3]
      · have h3 : ¬ (offset + i ≤ a ^^^ 3 ∧ a ^^^ 3 < offset + i + (n + 1)) := by omega
        rw [if_neg h2, if_neg h3, if_neg h4]

theorem write_sector_loop_eq (ds_buf : Nat → Nat) (offset : Nat) :
    ∀ n i mem a,
      write_sector_loop ds_buf offset n i mem a =
        if offset + i ≤ a ∧ a < offset + i + n then u8 (ds_buf ((a - offset) ^^^ 3))
        else mem a := by
  intro n
  induction n with
  | zero =>
    intro i mem a
    have : ¬ (offset + i ≤ a ∧ a < offset + i + 0) := by omega
    rw [if_neg this]
    rfl
  | succ n ih =>
    intro i mem a
    unfold write_sector_loop
    rw [ih]
    by_cases h1 : a = offset + i
    · have h2 : ¬ (offset + (i + 1) ≤ a ∧ a < offset + (i + 1) + n) := by omega
      have h3 : offset + i ≤ a ∧ a < offset + i + (n + 1) := by omega
      have h5 : a - offset = i := by omega
      rw [if_neg h2, if_pos h3, if_pos h1, h5]
    · by_cases h2 : offset + (i + 1) ≤ a ∧ a < offset + (i + 1) + n
      · have h3 : offset + i ≤ a ∧ a < offset + i + (n + 1) := by omega
        rw [if_pos h2, if_pos h3]
      · have h3 : ¬ (offset + i ≤ a ∧ a < offset + i + (n + 1)) := by omega
        rw [if_neg h2, if_neg h3, if_neg h1]

/-- C27: scratch-buffer accesses of the sequencer stay in bounds. With
`HOST_SECBYTE ≤ 0xFF` and `bm_zone ≤ 15`, every `ds_buf` index `i XOR 3` used
by `read_sector` and `write_sector` (for `i` below `HOST_SECBYTE + 1` or below
`zone_sec_size[bm_zone]`) is below 256, and for `CUR_SECTOR` in `85..88` every
`c2s_buf` index `(0x40 * (CUR_SECTOR - 85) + i) XOR 3` used by `read_C2` (for
`i < zone_sec_size[bm_zone]`) is below 1024; accordingly `read_sector` leaves
`ds_buf` untouched from index 256 on and `read_C2` leaves `c2s_buf` untouched
from index 1024 on. -/
theorem scratch_buffer_bounds (dd : dd_controller)
    (hsec : dd.regs Reg.DD_ASIC_HOST_SECBYTE ≤ 0xFF) (_hz : dd.bm_zone ≤ 15) :
    (∀ i, i < u32 (dd.regs Reg.DD_ASIC_HOST_SECBYTE + 1) → i ^^^ 3 < 256) ∧
    (∀ i, i < rd zone_sec_size dd.bm_zone → i ^^^ 3 < 256) ∧
    (85 ≤ dd.regs Reg.DD_ASIC_CUR_SECTOR ∧ dd.regs Reg.DD_ASIC_CUR_SECTOR ≤ 88 →
      ∀ i, i < rd zone_sec_size dd.bm_zone →
        (u32 (0x40 * sub32 (dd.regs Reg.DD_ASIC_CUR_SECTOR) SECTORS_PER_BLOCK) + i) ^^^ 3
          < 1024) ∧
    (∀ a, 256 ≤ a → (read_sector dd).ds_buf a = dd.ds_buf a) ∧
    (85 ≤ dd.regs Reg.DD_ASIC_CUR_SECTOR ∧ dd.regs Reg.DD_ASIC_CUR_SECTOR ≤ 88 →
      ∀ a, 1024 ≤ a → (read_C2 dd).c2s_buf a = dd.c2s_buf a) := by
  have hzs := zone_sec_size_le dd.bm_zone
  have hlen : u32 (dd.regs Reg.DD_ASIC_HOST_SECBYTE + 1) ≤ 256 := by unfold u32; omega
  have hoff : 85 ≤ dd.regs Reg.DD_ASIC_CUR_SECTOR ∧ dd.regs Reg.DD_ASIC_CUR_SECTOR ≤ 88 →
      u32 (0x40 * sub32 (dd.regs Reg.DD_ASIC_CUR_SECTOR) SECTORS_PER_BLOCK) ≤ 192 := by
    intro h
    unfold u32 sub32 SECTORS_PER_BLOCK
    omega
  refine ⟨?_, ?_, ?_, ?_, ?_⟩
  · intro i hi
    exact xor3_lt_256 i (by omega)
  · intro i hi
    exact xor3_lt_256 i (by omega)
  · intro h i hi
    have := hoff h
    exact xor3_lt_1024 _ (by omega)
  · intro a ha
    have hx : ¬ a ^^^ 3 < 256 := by
      intro h
      have := xor3_lt_256 _ h
      rw [xor3_xor3] at this
      omega
    unfold read_sector
    simp only []
    rw [read_sector_loop_eq]
    rw [if_neg (by omega)]
  · intro h a ha
    have := hoff h
    have hx : ¬ a ^^^ 3 < 1024 := by
      intro h
      have := xor3_lt_1024 _ h
      rw [xor3_xor3] at this
      omega
    unfold read_C2
    simp only []
    rw [read_C2_loop_eq]
    rw [if_neg (by omega)]

theorem scratch_buffer_bounds_witness :
    sample_state.regs Reg.DD_ASIC_HOST_SECBYTE ≤ 0xFF ∧ sample_state.bm_zone ≤ 15 ∧
    (∀ a, 256 ≤ a → (read_sector sample_state).ds_buf a = sample_state.ds_buf a) :=
  ⟨by decide, by decide, (scratch_buffer_bounds sample_state (by decide) (by decide)).2.2.2.1⟩

/-- C28: a written sector reads back identically. In every disk format, for a
state with `HOST_SECBYTE + 1 = zone_sec_size[bm_zone]` (and a data buffer of
bytes), `write_sector` followed by `read_sector` at the same `bm_track_offset`
leaves `ds_buf` unchanged; after `write_sector` the image byte at
`bm_track_offset + i` equals `ds_buf[i XOR 3]` for every `i < HOST_SECBYTE + 1`,
and all image bytes outside that range are unchanged. (The image of the
embedding is unbounded, so the run lies within it.) -/
theorem write_sector_read_back (dd : dd_controller)
    (hlen : dd.regs Reg.DD_ASIC_HOST_SECBYTE + 1 = rd zone_sec_size dd.bm_zone)
    (hbytes : ∀ a, dd.ds_buf a < 256) :
    (read_sector (write_sector dd)).ds_buf = dd.ds_buf ∧
    (write_sector dd).bm_track_offset = dd.bm_track_offset ∧
    (∀ i, i < dd.regs Reg.DD_ASIC_HOST_SECBYTE + 1 →
      (write_sector dd).disk.byte (dd.bm_track_offset + i) = dd.ds_buf (i ^^^ 3)) ∧
    (∀ a, a < dd.bm_track_offset ∨
        dd.bm_track_offset + (dd.regs Reg.DD_ASIC_HOST_SECBYTE + 1) ≤ a →
      (write_sector dd).disk.data a = dd.disk.data a) := by
  have hzs := zone_sec_size_le dd.bm_zone
  have hu : u32 (dd.regs Reg.DD_ASIC_HOST_SECBYTE + 1) =
      dd.regs Reg.DD_ASIC_HOST_SECBYTE + 1 := by unfold u32; omega
  have hwlen : (if dd.disk.format ≠ DiskFormat.DISK_FORMAT_MAME then
        u32 (dd.regs Reg.DD_ASIC_HOST_SECBYTE + 1) else rd zone_sec_size dd.bm_zone) =
      dd.regs Reg.DD_ASIC_HOST_SECBYTE + 1 := by
    split_ifs
    · exact hu
    · exact hlen.symm
  have hdata : ∀ a, (write_sector dd).disk.data a =
      if dd.bm_track_offset + 0 ≤ a ∧
          a < dd.bm_track_offset + 0 + (dd.regs Reg.DD_ASIC_HOST_SECBYTE + 1) then
        u8 (dd.ds_buf ((a - dd.bm_track_offset) ^^^ 3))
      else dd.disk.data a := by
    intro a
    unfold write_sector
    simp only []
    rw [hwlen, write_sector_loop_eq]
  have hbyte : ∀ i, i < dd.regs Reg.DD_ASIC_HOST_SECBYTE + 1 →
      (write_sector dd).disk.byte (dd.bm_track_offset + i) = dd.ds_buf (i ^^^ 3) := by
    intro i hi
    unfold Disk.byte
    rw [hdata, if_pos (by omega)]
    have e : dd.bm_track_offset + i - dd.bm_track_offset = i := by omega
    rw [e]
    have := hbytes (i ^^^ 3)
    unfold u8
    omega
  refine ⟨?_, rfl, hbyte, ?_⟩
  · funext a
    have hr : (read_sector (write_sector dd)).ds_buf a =
        read_sector_loop (write_sector dd).disk dd.bm_track_offset
          (u32 (dd.regs Reg.DD_ASIC_HOST_SECBYTE + 1)) 0 dd.ds_buf a := rfl
    rw [hr, hu, read_sector_loop_eq]
    by_cases h : 0 ≤ a ^^^ 3 ∧ a ^^^ 3 < 0 + (dd.regs Reg.DD_ASIC_HOST_SECBYTE + 1)
    · rw [if_pos h, hbyte _ (by omega), xor3_xor3]
    · rw [if_neg h]
  · intro a ha
    rw [hdata, if_neg (by omega)]

theorem write_sector_read_back_witness :
    sector_io_state.regs Reg.DD_ASIC_HOST_SECBYTE + 1 =
      rd zone_sec_size sector_io_state.bm_zone ∧
    (read_sector (write_sector sector_io_state)).ds_buf = sector_io_state.ds_buf ∧
    (write_sector sector_io_state).disk.byte (sector_io_state.bm_track_offset + 5) =
      sector_io_state.ds_buf (5 ^^^ 3) :=
  have h := write_sector_read_back sector_io_state (by decide)
    (fun a => Nat.mod_lt a (by decide))
  ⟨by decide, h.1, h.2.2.1 5 (by decide)⟩

end DD
